import Mathlib

/-!
Verification of the color-management core (sRGB-Lab conversion, per-image
statistics, Reinhard-style transfer, Lab shifting, recovery shift and
confidence scoring) against its natural-language specification.

Modelling conventions:
* JavaScript numbers are modelled as exact real numbers (`ℝ`).  This model
  is faithful as long as the computation stays inside the finite float64
  range; the two places where non-finite values matter are modelled
  explicitly: division by zero in the statistics collector with the `JSNum`
  type (`sum / count` with `count = 0`; every accumulator is `0` there, so
  the non-finite JavaScript result is always `NaN`, never `Infinity`), and
  float64 overflow in the color converter with the `JSFloat` type
  (`labToRgbF`), which carries `NaN` and the two infinities so that
  `labToRgb` on Lab inputs of overflowing magnitude can be analysed.
* A pixel buffer (`ImageData.data`, a flat RGBA `Uint8ClampedArray` whose
  length is 4 * width * height) is modelled as a `List Pixel` of RGBA
  quadruples; the loops `for (i = 0; i < data.length; i += 4)` become
  `List.map` over pixels, and the statistics loop with stride
  `max(1, sampleStep) * 4` bytes becomes `samplePixels` (every
  `max 1 sampleStep`-th pixel).
* Storing into a `Uint8ClampedArray` clamps to [0, 255] (`writeByte`).
* `Math.round x` is `⌊x + 1/2⌋` (round half towards positive infinity),
  `Math.pow x 2.4` is `Real.rpow`, `Math.pow x 3` is the cube, and
  `Math.cbrt` is the real cube root (odd extension of `rpow (1/3)`).
-/

open Classical

namespace Color

/-- A CIE Lab triple (source objects `{L, a, b}` of JavaScript numbers). -/
structure Lab where
  L : ℝ
  a : ℝ
  b : ℝ

/-- An RGB triple as returned by `labToRgb`: rounded and clamped channels. -/
structure RGB where
  r : ℤ
  g : ℤ
  b : ℤ

/-- One RGBA quadruple of a pixel buffer (`data[i] .. data[i+3]`). -/
structure Pixel where
  r : ℤ
  g : ℤ
  b : ℤ
  alpha : ℤ
deriving DecidableEq

/-- Statistics record `{mean, std}` consumed by the transfer and shift
engines.  Per the data model its `std` components are never zero (they are
floored at 1e-6 by the statistics collector). -/
structure Stats where
  mean : Lab
  std : Lab

/-- `const D65 = { x: 0.95047, y: 1.0, z: 1.08883 }`. -/
structure XYZ where
  x : ℝ
  y : ℝ
  z : ℝ

noncomputable def D65 : XYZ := ⟨0.95047, 1.0, 1.08883⟩

/-- `const clamp = (value, min, max) => Math.min(max, Math.max(min, value))`. -/
noncomputable def clamp (value lo hi : ℝ) : ℝ := min hi (max lo value)

/-- The source `clamp` applied to an already-rounded (integer) value, as in
`clamp(Math.round(r * 255), 0, 255)`. -/
def clampInt (value lo hi : ℤ) : ℤ := min hi (max lo value)

/-- `Math.round`: round half towards positive infinity. -/
noncomputable def jsRound (x : ℝ) : ℤ := ⌊x + 1/2⌋

/-- `Math.cbrt`: the real cube root (JavaScript's cbrt is defined for
negative arguments as the odd extension). -/
noncomputable def jsCbrt (x : ℝ) : ℝ :=
  if 0 ≤ x then x ^ ((1:ℝ)/3) else -((-x) ^ ((1:ℝ)/3))

/-- `srgbToLinear`: gamma-decode one sRGB channel value in [0,1]. -/
noncomputable def srgbToLinear (value : ℝ) : ℝ :=
  if value ≤ 0.04045 then value / 12.92
  else ((value + 0.055) / 1.055) ^ (2.4 : ℝ)

/-- `linearToSrgb`: gamma-encode one linear channel value.  In the second
branch the base is positive (greater than 0.0031308), so for finite
arguments JavaScript's `Math.pow(value, 1/2.4)` agrees with `rpow`. -/
noncomputable def linearToSrgb (value : ℝ) : ℝ :=
  if value ≤ 0.0031308 then 12.92 * value
  else 1.055 * value ^ ((1:ℝ) / 2.4) - 0.055

/-- `labPivot`: `value > 0.008856 ? Math.cbrt(value) : (7.787*value) + 16/116`. -/
noncomputable def labPivot (value : ℝ) : ℝ :=
  if 0.008856 < value then jsCbrt value else 7.787 * value + 16 / 116

/-- `labPivotInv`: `cube = Math.pow(value, 3)` (the cube, exact for every
real argument), then `cube > 0.008856 ? cube : (value - 16/116) / 7.787`. -/
noncomputable def labPivotInv (value : ℝ) : ℝ :=
  let cube := value ^ (3:ℕ)
  if 0.008856 < cube then cube else (value - 16 / 116) / 7.787

/-- `rgbToLab(r, g, b)`: sRGB bytes (as numbers) to CIE Lab. -/
noncomputable def rgbToLab (r g b : ℝ) : Lab :=
  let rn := srgbToLinear (r / 255)
  let gn := srgbToLinear (g / 255)
  let bn := srgbToLinear (b / 255)
  let x := rn * 0.4124564 + gn * 0.3575761 + bn * 0.1804375
  let y := rn * 0.2126729 + gn * 0.7151522 + bn * 0.0721750
  let z := rn * 0.0193339 + gn * 0.1191920 + bn * 0.9503041
  let fx := labPivot (x / D65.x)
  let fy := labPivot (y / D65.y)
  let fz := labPivot (z / D65.z)
  ⟨116 * fy - 16, 500 * (fx - fy), 200 * (fy - fz)⟩

/-- `labToRgb(L, a, b)`: CIE Lab to rounded, clamped sRGB bytes, in the
exact-real model.  This model is faithful for inputs whose intermediates
stay below the float64 overflow threshold — in particular everywhere the
program feeds it clamped Lab values (the byte round-trip, transfer and
shift paths).  For Lab inputs of overflowing magnitude the real model
diverges from float64 (`labPivotInv` overflows to `Infinity` and the
matrix rows produce `Infinity - Infinity = NaN`); that regime is modelled
separately by `labToRgbF` below. -/
noncomputable def labToRgb (L a b : ℝ) : RGB :=
  let fy := (L + 16) / 116
  let fx := a / 500 + fy
  let fz := fy - b / 200
  let xr := labPivotInv fx
  let yr := labPivotInv fy
  let zr := labPivotInv fz
  let x := xr * D65.x
  let y := yr * D65.y
  let z := zr * D65.z
  let r := x * 3.2404542 + y * (-1.5371385) + z * (-0.4985314)
  let g := x * (-0.9692660) + y * 1.8760108 + z * 0.0415560
  let bVal := x * 0.0556434 + y * (-0.2040259) + z * 1.0572252
  let r2 := linearToSrgb r
  let g2 := linearToSrgb g
  let b2 := linearToSrgb bVal
  ⟨clampInt (jsRound (r2 * 255)) 0 255,
   clampInt (jsRound (g2 * 255)) 0 255,
   clampInt (jsRound (b2 * 255)) 0 255⟩

/-- `clampLab(lab)`: clamp a Lab triple into the valid Lab ranges. -/
noncomputable def clampLab (lab : Lab) : Lab :=
  ⟨clamp lab.L 0 100, clamp lab.a (-128) 127, clamp lab.b (-128) 127⟩

/-- `blend(base, target, amount) = Math.round(base + (target - base) * amount)`. -/
noncomputable def blend (base target amount : ℝ) : ℤ :=
  jsRound (base + (target - base) * amount)

/-- Assignment into a `Uint8ClampedArray` slot (`data[i] = v`): values are
clamped to [0, 255]. -/
def writeByte (v : ℤ) : ℤ := clampInt v 0 255

/-! ### Statistics collector (`computeLabStats`) -/

/-- A JavaScript number that is either finite or `NaN`. -/
inductive JSNum where
  | nan : JSNum
  | fin : ℝ → JSNum

/-- Division of an accumulator by the sample count (`sum / count`).  When
`count = 0` the loop body never ran, every accumulator is `0`, and
JavaScript's `0 / 0` is `NaN`. -/
noncomputable def jsDivCount (x : ℝ) (count : ℕ) : JSNum :=
  if count = 0 then JSNum.nan else JSNum.fin (x / count)

/-- Subtraction on JavaScript numbers (`NaN` propagates). -/
noncomputable def jsSub : JSNum → JSNum → JSNum
  | JSNum.fin x, JSNum.fin y => JSNum.fin (x - y)
  | _, _ => JSNum.nan

/-- Multiplication on JavaScript numbers (`NaN` propagates). -/
noncomputable def jsMul : JSNum → JSNum → JSNum
  | JSNum.fin x, JSNum.fin y => JSNum.fin (x * y)
  | _, _ => JSNum.nan

/-- `Math.max(0, x)` on a JavaScript number (`Math.max` with a `NaN`
argument is `NaN`). -/
noncomputable def jsMax0 : JSNum → JSNum
  | JSNum.nan => JSNum.nan
  | JSNum.fin x => JSNum.fin (max 0 x)

/-- `Math.sqrt` on a JavaScript number (`NaN` for `NaN` or negative input). -/
noncomputable def jsSqrt : JSNum → JSNum
  | JSNum.nan => JSNum.nan
  | JSNum.fin x => if x < 0 then JSNum.nan else JSNum.fin (Real.sqrt x)

/-- `x || 1e-6`: JavaScript picks the floor when `x` is falsy, which for the
numbers reaching this expression means `NaN` or `0`. -/
noncomputable def jsOrFloor (x : JSNum) : JSNum :=
  match x with
  | JSNum.nan => JSNum.fin 1e-6
  | JSNum.fin v => if v = 0 then JSNum.fin 1e-6 else JSNum.fin v

/-- A Lab triple of JavaScript numbers, as produced by `computeLabStats`. -/
structure JSLab where
  L : JSNum
  a : JSNum
  b : JSNum

/-- The raw `{mean, std}` record returned by `computeLabStats` (its fields
can be `NaN`, unlike the `Stats` record assumed by downstream consumers). -/
structure JSStats where
  mean : JSLab
  std : JSLab

/-- The pixels visited by the statistics loop
`for (i = 0; i < data.length; i += Math.max(1, sampleStep) * 4)`:
every `s`-th pixel of the buffer, starting at the first. -/
def samplePixels (s : ℕ) : List Pixel → List Pixel
  | [] => []
  | p :: rest => p :: samplePixels s (rest.drop (s - 1))
termination_by l => l.length
decreasing_by simp only [List.length_drop, List.length_cons]; omega

/-- `computeLabStats(imageData, sampleStep = 4)`: sampled per-channel Lab
mean and standard deviation.  The running sums of the loop are expressed as
sums over the sampled pixel list; `count` is the number of loop
iterations. -/
noncomputable def computeLabStats (data : List Pixel) (sampleStep : ℕ) : JSStats :=
  let pts := samplePixels (max 1 sampleStep) data
  let labs := pts.map (fun p => rgbToLab p.r p.g p.b)
  let count := labs.length
  let sumL := (labs.map (fun l => l.L)).sum
  let sumA := (labs.map (fun l => l.a)).sum
  let sumB := (labs.map (fun l => l.b)).sum
  let sumL2 := (labs.map (fun l => l.L * l.L)).sum
  let sumA2 := (labs.map (fun l => l.a * l.a)).sum
  let sumB2 := (labs.map (fun l => l.b * l.b)).sum
  let meanL := jsDivCount sumL count
  let meanA := jsDivCount sumA count
  let meanB := jsDivCount sumB count
  let varL := jsMax0 (jsSub (jsDivCount sumL2 count) (jsMul meanL meanL))
  let varA := jsMax0 (jsSub (jsDivCount sumA2 count) (jsMul meanA meanA))
  let varB := jsMax0 (jsSub (jsDivCount sumB2 count) (jsMul meanB meanB))
  ⟨⟨meanL, meanA, meanB⟩,
   ⟨jsOrFloor (jsSqrt varL), jsOrFloor (jsSqrt varA), jsOrFloor (jsSqrt varB)⟩⟩

/-! ### Transfer engine (`applyReinhardTransfer`) -/

/-- The per-pixel Lab adjustment of `applyReinhardTransfer` (the two
mode-guarded reassignments of `L`, `a`, `bLab`). -/
noncomputable def transferLab (referenceStats targetStats : Stats) (mode : String)
    (lab : Lab) : Lab :=
  let L := if mode = "full" ∨ mode = "luminance" then
      ((lab.L - targetStats.mean.L) * (referenceStats.std.L / targetStats.std.L))
        + referenceStats.mean.L
    else lab.L
  let a := if mode = "full" ∨ mode = "chromatic" then
      ((lab.a - targetStats.mean.a) * (referenceStats.std.a / targetStats.std.a))
        + referenceStats.mean.a
    else lab.a
  let b := if mode = "full" ∨ mode = "chromatic" then
      ((lab.b - targetStats.mean.b) * (referenceStats.std.b / targetStats.std.b))
        + referenceStats.mean.b
    else lab.b
  ⟨L, a, b⟩

/-- The body of the pixel loop of `applyReinhardTransfer`. -/
noncomputable def processPixel (referenceStats targetStats : Stats) (strength : ℝ)
    (mode : String) (p : Pixel) : Pixel :=
  let lab := rgbToLab p.r p.g p.b
  let t := transferLab referenceStats targetStats mode lab
  let c := clampLab t
  let rgb := labToRgb c.L c.a c.b
  ⟨writeByte (blend p.r rgb.r strength),
   writeByte (blend p.g rgb.g strength),
   writeByte (blend p.b rgb.b strength),
   p.alpha⟩

/-- `applyReinhardTransfer({imageData, referenceStats, targetStats, strength,
mode})`: statistical color transfer over every pixel of the buffer.  The
source performs no validation of `strength` or `mode` and has no error
path; it always processes the whole buffer and returns it. -/
noncomputable def applyReinhardTransfer (data : List Pixel)
    (referenceStats targetStats : Stats) (strength : ℝ) (mode : String) :
    List Pixel :=
  data.map (processPixel referenceStats targetStats strength mode)

/-! ### Shift engine (`applyLabShift`, `computeRecoveryShift`) -/

/-- A shift record `{L, a, b}` whose components may each be absent
(`shift.L ?? 0`). -/
structure ShiftRec where
  L : Option ℝ
  a : Option ℝ
  b : Option ℝ

/-- The body of the pixel loop of `applyLabShift`. -/
noncomputable def shiftPixel (shiftL shiftA shiftB strength : ℝ) (p : Pixel) :
    Pixel :=
  let lab := rgbToLab p.r p.g p.b
  let shifted := clampLab ⟨lab.L + shiftL, lab.a + shiftA, lab.b + shiftB⟩
  let rgb := labToRgb shifted.L shifted.a shifted.b
  ⟨writeByte (blend p.r rgb.r strength),
   writeByte (blend p.g rgb.g strength),
   writeByte (blend p.b rgb.b strength),
   p.alpha⟩

/-- `applyLabShift(imageData, shift, strength = 1)`: additive Lab shift over
every pixel; returns the buffer untouched when `shift` is absent
(`if (!shift) return imageData`) or when all three defaulted components are
zero. -/
noncomputable def applyLabShift (data : List Pixel) (shift : Option ShiftRec)
    (strength : ℝ) : List Pixel :=
  match shift with
  | none => data
  | some sh =>
    let shiftL := sh.L.getD 0
    let shiftA := sh.a.getD 0
    let shiftB := sh.b.getD 0
    if shiftL = 0 ∧ shiftA = 0 ∧ shiftB = 0 then data
    else data.map (shiftPixel shiftL shiftA shiftB strength)

/-- `computeRecoveryShift(stats)`: the recovery shift against the configured
target.  The source reads `recoveryAutoExposure`, `recoveryAutoWB` and the
three `recoveryTarget*` values from the enclosing component scope; they are
explicit parameters here.  The source initialises `{L:0, a:0, b:0}` and
conditionally overwrites the axes, which is the conditional below. -/
noncomputable def computeRecoveryShift (recoveryAutoExposure recoveryAutoWB : Bool)
    (recoveryTargetL recoveryTargetA recoveryTargetB : ℝ) (stats : Stats) : Lab :=
  ⟨if recoveryAutoExposure then recoveryTargetL - stats.mean.L else 0,
   if recoveryAutoWB then recoveryTargetA - stats.mean.a else 0,
   if recoveryAutoWB then recoveryTargetB - stats.mean.b else 0⟩

/-! ### Confidence scoring -/

/-- The `confidence` memo of the orchestrating component: base score from an
externally supplied quality score, else a recovery heuristic; minus a risk
penalty; clamped to [0,100]; labelled.  `risk` stands for
`chartEnvironment?.risk || environmentInfo?.risk`; the labels are the
source's strings: "高" = High, "中" = Mid, "低" = Low. -/
def confidence (qualityScore : Option ℚ) (recoveryAvailable recoveryEnabled : Bool)
    (risk : Option String) : ℚ × String :=
  let score : ℚ :=
    match qualityScore with
    | some q => q
    | none => if recoveryAvailable then (if recoveryEnabled then 55 else 35) else 40
  let score := if risk = some "high" then score - 15 else score
  let score := if risk = some "medium" then score - 7 else score
  let score := max 0 (min 100 score)
  let label := if score ≥ 70 then "高" else if score ≥ 50 then "中" else "低"
  (score, label)

/-! ### Float64 model of the color converter (`labToRgbF`)

The exact-real `labToRgb` above cannot overflow, but the JavaScript program
runs on float64, where a finite Lab input of large magnitude drives
`labPivotInv` to `Infinity` and the XYZ-to-RGB rows to
`Infinity - Infinity = NaN`.  `JSFloat` carries `NaN` and the two
infinities; finite values are kept as exact reals, and an operation whose
exact result exceeds the largest finite float64 value in magnitude
overflows to the signed infinity (the per-operation rounding of float64 is
idealised away, which only matters within one ulp of the overflow
threshold — far from every value these theorems touch). -/

/-- A float64 value: `NaN`, one of the two infinities, or a finite value
(kept exact). -/
inductive JSFloat where
  | nan : JSFloat
  | inf : JSFloat
  | ninf : JSFloat
  | fin : ℝ → JSFloat

/-- The largest finite float64 value. -/
noncomputable def maxDouble : ℝ := 1.7976931348623157e308

/-- A finite exact result re-enters float64: magnitudes beyond `maxDouble`
overflow to the signed infinity. -/
noncomputable def fltOfReal (x : ℝ) : JSFloat :=
  if maxDouble < x then JSFloat.inf
  else if x < -maxDouble then JSFloat.ninf
  else JSFloat.fin x

/-- Float64 addition: `NaN` propagates and `Infinity + (-Infinity) = NaN`. -/
noncomputable def fltAdd : JSFloat → JSFloat → JSFloat
  | JSFloat.nan, _ => JSFloat.nan
  | _, JSFloat.nan => JSFloat.nan
  | JSFloat.inf, JSFloat.ninf => JSFloat.nan
  | JSFloat.ninf, JSFloat.inf => JSFloat.nan
  | JSFloat.inf, _ => JSFloat.inf
  | _, JSFloat.inf => JSFloat.inf
  | JSFloat.ninf, _ => JSFloat.ninf
  | _, JSFloat.ninf => JSFloat.ninf
  | JSFloat.fin x, JSFloat.fin y => fltOfReal (x + y)

/-- Float64 subtraction: `NaN` propagates and `Infinity - Infinity = NaN`. -/
noncomputable def fltSub : JSFloat → JSFloat → JSFloat
  | JSFloat.nan, _ => JSFloat.nan
  | _, JSFloat.nan => JSFloat.nan
  | JSFloat.inf, JSFloat.inf => JSFloat.nan
  | JSFloat.ninf, JSFloat.ninf => JSFloat.nan
  | JSFloat.inf, _ => JSFloat.inf
  | JSFloat.ninf, _ => JSFloat.ninf
  | _, JSFloat.inf => JSFloat.ninf
  | _, JSFloat.ninf => JSFloat.inf
  | JSFloat.fin x, JSFloat.fin y => fltOfReal (x - y)

/-- Float64 multiplication: `NaN` propagates and `Infinity * 0 = NaN`. -/
noncomputable def fltMul : JSFloat → JSFloat → JSFloat
  | JSFloat.nan, _ => JSFloat.nan
  | _, JSFloat.nan => JSFloat.nan
  | JSFloat.inf, JSFloat.inf => JSFloat.inf
  | JSFloat.inf, JSFloat.ninf => JSFloat.ninf
  | JSFloat.ninf, JSFloat.inf => JSFloat.ninf
  | JSFloat.ninf, JSFloat.ninf => JSFloat.inf
  | JSFloat.inf, JSFloat.fin y =>
      if 0 < y then JSFloat.inf else if y < 0 then JSFloat.ninf else JSFloat.nan
  | JSFloat.fin x, JSFloat.inf =>
      if 0 < x then JSFloat.inf else if x < 0 then JSFloat.ninf else JSFloat.nan
  | JSFloat.ninf, JSFloat.fin y =>
      if 0 < y then JSFloat.ninf else if y < 0 then JSFloat.inf else JSFloat.nan
  | JSFloat.fin x, JSFloat.ninf =>
      if 0 < x then JSFloat.ninf else if x < 0 then JSFloat.inf else JSFloat.nan
  | JSFloat.fin x, JSFloat.fin y => fltOfReal (x * y)

/-- Float64 division: `NaN` propagates, `Infinity / Infinity = NaN`,
`x / Infinity = 0`, `x / 0` is `NaN` for `x = 0` and the signed infinity
otherwise (the divisor 0 is the positive zero in this model). -/
noncomputable def fltDiv : JSFloat → JSFloat → JSFloat
  | JSFloat.nan, _ => JSFloat.nan
  | _, JSFloat.nan => JSFloat.nan
  | JSFloat.inf, JSFloat.inf => JSFloat.nan
  | JSFloat.inf, JSFloat.ninf => JSFloat.nan
  | JSFloat.ninf, JSFloat.inf => JSFloat.nan
  | JSFloat.ninf, JSFloat.ninf => JSFloat.nan
  | JSFloat.inf, JSFloat.fin y => if 0 ≤ y then JSFloat.inf else JSFloat.ninf
  | JSFloat.ninf, JSFloat.fin y => if 0 ≤ y then JSFloat.ninf else JSFloat.inf
  | JSFloat.fin _, JSFloat.inf => JSFloat.fin 0
  | JSFloat.fin _, JSFloat.ninf => JSFloat.fin 0
  | JSFloat.fin x, JSFloat.fin y =>
      if y = 0 then
        (if x = 0 then JSFloat.nan else if 0 < x then JSFloat.inf else JSFloat.ninf)
      else fltOfReal (x / y)

/-- `Math.pow(value, 3)` on float64: the cube, with overflow;
`(-Infinity)^3 = -Infinity`. -/
noncomputable def fltPow3 : JSFloat → JSFloat
  | JSFloat.nan => JSFloat.nan
  | JSFloat.inf => JSFloat.inf
  | JSFloat.ninf => JSFloat.ninf
  | JSFloat.fin x => fltOfReal (x ^ (3:ℕ))

/-- `Math.pow(value, 1/2.4)` on float64: `NaN` for a negative (or `-Infinity`)
base, `Infinity` for `Infinity`. -/
noncomputable def fltPowInv24 : JSFloat → JSFloat
  | JSFloat.nan => JSFloat.nan
  | JSFloat.inf => JSFloat.inf
  | JSFloat.ninf => JSFloat.nan
  | JSFloat.fin x => if x < 0 then JSFloat.nan else fltOfReal (x ^ ((1:ℝ)/2.4))

/-- `Math.round` on float64: `NaN` and the infinities are returned as is;
a finite value rounds half towards positive infinity (the result, an
integer-valued double, is kept exact). -/
noncomputable def fltRound : JSFloat → JSFloat
  | JSFloat.nan => JSFloat.nan
  | JSFloat.inf => JSFloat.inf
  | JSFloat.ninf => JSFloat.ninf
  | JSFloat.fin x => JSFloat.fin ((⌊x + 1/2⌋ : ℤ) : ℝ)

/-- Binary `Math.max`: `NaN` propagates. -/
noncomputable def fltMax : JSFloat → JSFloat → JSFloat
  | JSFloat.nan, _ => JSFloat.nan
  | _, JSFloat.nan => JSFloat.nan
  | JSFloat.inf, _ => JSFloat.inf
  | _, JSFloat.inf => JSFloat.inf
  | JSFloat.ninf, y => y
  | x, JSFloat.ninf => x
  | JSFloat.fin x, JSFloat.fin y => JSFloat.fin (max x y)

/-- Binary `Math.min`: `NaN` propagates. -/
noncomputable def fltMin : JSFloat → JSFloat → JSFloat
  | JSFloat.nan, _ => JSFloat.nan
  | _, JSFloat.nan => JSFloat.nan
  | JSFloat.ninf, _ => JSFloat.ninf
  | _, JSFloat.ninf => JSFloat.ninf
  | JSFloat.inf, y => y
  | x, JSFloat.inf => x
  | JSFloat.fin x, JSFloat.fin y => JSFloat.fin (min x y)

/-- Float64 `<=`: every comparison with `NaN` is false. -/
noncomputable def fltLe : JSFloat → JSFloat → Bool
  | JSFloat.nan, _ => false
  | _, JSFloat.nan => false
  | JSFloat.ninf, _ => true
  | _, JSFloat.ninf => false
  | _, JSFloat.inf => true
  | JSFloat.inf, _ => false
  | JSFloat.fin x, JSFloat.fin y => if x ≤ y then true else false

/-- Float64 `<`: every comparison with `NaN` is false. -/
noncomputable def fltLt : JSFloat → JSFloat → Bool
  | JSFloat.nan, _ => false
  | _, JSFloat.nan => false
  | JSFloat.ninf, JSFloat.ninf => false
  | JSFloat.inf, JSFloat.inf => false
  | JSFloat.ninf, _ => true
  | _, JSFloat.inf => true
  | JSFloat.inf, _ => false
  | _, JSFloat.ninf => false
  | JSFloat.fin x, JSFloat.fin y => if x < y then true else false

/-- The source `clamp` on float64 values:
`Math.min(max, Math.max(min, value))`.  Note that `Math.max` and `Math.min`
propagate `NaN`, so a `NaN` value passes the clamp unchanged. -/
noncomputable def clampF (value lo hi : JSFloat) : JSFloat :=
  fltMin hi (fltMax lo value)

/-- `linearToSrgb` on float64 (`value <= 0.0031308` is false for `NaN`,
which then flows through `Math.pow` and stays `NaN`). -/
noncomputable def linearToSrgbF (value : JSFloat) : JSFloat :=
  if fltLe value (JSFloat.fin 0.0031308) then fltMul (JSFloat.fin 12.92) value
  else fltSub (fltMul (JSFloat.fin 1.055) (fltPowInv24 value)) (JSFloat.fin 0.055)

/-- `labPivotInv` on float64: the cube can overflow to `Infinity`, and
`0.008856 < Infinity` holds, so the overflowed cube is returned. -/
noncomputable def labPivotInvF (value : JSFloat) : JSFloat :=
  let cube := fltPow3 value
  if fltLt (JSFloat.fin 0.008856) cube then cube
  else fltDiv (fltSub value (JSFloat.fin (16/116))) (JSFloat.fin 7.787)

/-- `labToRgb(L, a, b)` on float64: the same computation as `labToRgb`,
with every arithmetic operation carrying the `NaN`/`Infinity` semantics of
float64.  Used to settle what the program does on Lab inputs of
overflowing magnitude, where the exact-real model is not faithful. -/
noncomputable def labToRgbF (L a b : JSFloat) : JSFloat × JSFloat × JSFloat :=
  let fy := fltDiv (fltAdd L (JSFloat.fin 16)) (JSFloat.fin 116)
  let fx := fltAdd (fltDiv a (JSFloat.fin 500)) fy
  let fz := fltSub fy (fltDiv b (JSFloat.fin 200))
  let xr := labPivotInvF fx
  let yr := labPivotInvF fy
  let zr := labPivotInvF fz
  let x := fltMul xr (JSFloat.fin D65.x)
  let y := fltMul yr (JSFloat.fin D65.y)
  let z := fltMul zr (JSFloat.fin D65.z)
  let r := fltAdd (fltAdd (fltMul x (JSFloat.fin 3.2404542))
    (fltMul y (JSFloat.fin (-1.5371385)))) (fltMul z (JSFloat.fin (-0.4985314)))
  let g := fltAdd (fltAdd (fltMul x (JSFloat.fin (-0.9692660)))
    (fltMul y (JSFloat.fin 1.8760108))) (fltMul z (JSFloat.fin 0.0415560))
  let bVal := fltAdd (fltAdd (fltMul x (JSFloat.fin 0.0556434))
    (fltMul y (JSFloat.fin (-0.2040259)))) (fltMul z (JSFloat.fin 1.0572252))
  let r2 := linearToSrgbF r
  let g2 := linearToSrgbF g
  let b2 := linearToSrgbF bVal
  (clampF (fltRound (fltMul r2 (JSFloat.fin 255))) (JSFloat.fin 0) (JSFloat.fin 255),
   clampF (fltRound (fltMul g2 (JSFloat.fin 255))) (JSFloat.fin 0) (JSFloat.fin 255),
   clampF (fltRound (fltMul b2 (JSFloat.fin 255))) (JSFloat.fin 0) (JSFloat.fin 255))

end Color

/-! ## Helper lemmas -/

namespace Color

theorem samplePixels_nil (s : ℕ) : samplePixels s [] = [] := by
  simp [samplePixels]

theorem samplePixels_cons (s : ℕ) (p : Pixel) (rest : List Pixel) :
    samplePixels s (p :: rest) = p :: samplePixels s (rest.drop (s - 1)) := by
  rw [samplePixels]

theorem samplePixels_subset (s : ℕ) (l : List Pixel) :
    ∀ q ∈ samplePixels s l, q ∈ l := by
  induction l using samplePixels.induct s with
  | case1 => simp [samplePixels_nil]
  | case2 p rest ih =>
    intro q hq
    rw [samplePixels_cons] at hq
    rcases List.mem_cons.1 hq with h | h
    · exact h ▸ List.mem_cons_self p rest
    · exact List.mem_cons_of_mem p (List.drop_subset _ rest (ih q h))

theorem samplePixels_ne_nil (s : ℕ) (l : List Pixel) (h : l ≠ []) :
    samplePixels s l ≠ [] := by
  cases l with
  | nil => exact absurd rfl h
  | cons p rest => rw [samplePixels_cons]; simp

end Color

namespace Color

/-- Claim C4: `applyLabShift` with an absent shift record, or with a shift
record whose (defaulted) components are all zero, returns the buffer
byte-identical. -/
theorem applyLabShift_zero_noop (data : List Pixel) (shift : Option ShiftRec)
    (strength : ℝ)
    (h : shift = none ∨ ∃ sh, shift = some sh ∧
      sh.L.getD 0 = 0 ∧ sh.a.getD 0 = 0 ∧ sh.b.getD 0 = 0) :
    applyLabShift data shift strength = data := by
  rcases h with h | ⟨sh, rfl, hL, hA, hB⟩
  · rw [h, applyLabShift]
  · rw [applyLabShift]
    exact if_pos ⟨hL, hA, hB⟩

theorem applyLabShift_zero_noop_witness :
    ((some (⟨some 0, some 0, some 0⟩ : ShiftRec) = none ∨
      ∃ sh, some (⟨some 0, some 0, some 0⟩ : ShiftRec) = some sh ∧
        sh.L.getD 0 = 0 ∧ sh.a.getD 0 = 0 ∧ sh.b.getD 0 = 0)) ∧
    applyLabShift [⟨1, 2, 3, 255⟩] (some ⟨some 0, some 0, some 0⟩) 1 = [⟨1, 2, 3, 255⟩] :=
  ⟨Or.inr ⟨⟨some 0, some 0, some 0⟩, rfl, by simp, by simp, by simp⟩,
   applyLabShift_zero_noop _ _ _
     (Or.inr ⟨⟨some 0, some 0, some 0⟩, rfl, by simp, by simp, by simp⟩)⟩

/-- Claim C6: the recovery shift has `ΔL = target.L - mean.L` exactly when
auto-exposure is enabled (else 0) and `Δa, Δb = target.a - mean.a,
target.b - mean.b` exactly when auto-white-balance is enabled (else 0), the
two toggles being independent; concretely, autoExposure on and autoWB off
with measured mean {L:60,a:5,b:-2} and target {L:50,a:0,b:0} yields
{ΔL:-10, Δa:0, Δb:0}. -/
theorem computeRecoveryShift_spec :
    (∀ (ae wb : Bool) (tL tA tB : ℝ) (stats : Stats),
      computeRecoveryShift ae wb tL tA tB stats =
        ⟨if ae then tL - stats.mean.L else 0,
         if wb then tA - stats.mean.a else 0,
         if wb then tB - stats.mean.b else 0⟩) ∧
    computeRecoveryShift true false 50 0 0 ⟨⟨60, 5, -2⟩, ⟨1, 1, 1⟩⟩ = ⟨-10, 0, 0⟩ := by
  refine ⟨fun ae wb tL tA tB stats => rfl, ?_⟩
  simp only [computeRecoveryShift, if_true, if_false]
  norm_num

/-- Claim C7: the confidence score is the externally supplied quality score
when available, else 55/35/40 by recovery availability and enablement,
minus 15 for High risk, 7 for Medium risk, 0 otherwise, clamped to
[0, 100]; the label is High ("高") when the clamped score is at least 70,
Mid ("中") when at least 50, else Low ("低"). -/
theorem confidence_spec (q : Option ℚ) (ra re : Bool) (risk : Option String) :
    (confidence q ra re risk).1 =
      max 0 (min 100
        ((match q with
          | some v => v
          | none => if ra then (if re then 55 else 35) else 40) -
         (if risk = some "high" then 15
          else if risk = some "medium" then 7 else 0))) ∧
    0 ≤ (confidence q ra re risk).1 ∧ (confidence q ra re risk).1 ≤ 100 ∧
    (confidence q ra re risk).2 =
      (if 70 ≤ (confidence q ra re risk).1 then "高"
       else if 50 ≤ (confidence q ra re risk).1 then "中" else "低") := by
  refine ⟨?_, ?_, ?_, ?_⟩
  · simp only [confidence]
    by_cases hh : risk = some "high"
    · have hm : risk ≠ some "medium" := by simp [hh]
      simp [hh, hm]
    · by_cases hm : risk = some "medium" <;> simp [hh, hm]
  · exact le_max_left 0 _
  · exact max_le (by norm_num) (min_le_left 100 _)
  · simp only [confidence, ge_iff_le]

/-- Claim C5: `applyReinhardTransfer` recomputes L (for mode full or
luminance) as `(L - targetMean.L) * (refStd.L / targetStd.L) + refMean.L`
and a, b analogously (for mode full or chromatic), leaves the other
channels untouched, clamps into Lab ranges, converts back to RGB and
blends each channel with the original by `strength`; concretely, with the
reference stats mean {50,2,-3} std {10,5,5}, target stats mean {40,0,0}
std {5,5,5} and mode full, the Lab pixel {45,1,-1} maps to {60,3,-4}
before re-encoding and clamping. -/
theorem applyReinhardTransfer_formula :
    (∀ (data : List Pixel) (ref tgt : Stats) (s : ℝ) (mode : String),
      applyReinhardTransfer data ref tgt s mode = data.map (fun p =>
        let lab := rgbToLab p.r p.g p.b
        let L := if mode = "full" ∨ mode = "luminance" then
            (lab.L - tgt.mean.L) * (ref.std.L / tgt.std.L) + ref.mean.L else lab.L
        let a := if mode = "full" ∨ mode = "chromatic" then
            (lab.a - tgt.mean.a) * (ref.std.a / tgt.std.a) + ref.mean.a else lab.a
        let b := if mode = "full" ∨ mode = "chromatic" then
            (lab.b - tgt.mean.b) * (ref.std.b / tgt.std.b) + ref.mean.b else lab.b
        let c := clampLab ⟨L, a, b⟩
        let rgb := labToRgb c.L c.a c.b
        ⟨writeByte (blend p.r rgb.r s), writeByte (blend p.g rgb.g s),
         writeByte (blend p.b rgb.b s), p.alpha⟩)) ∧
    transferLab ⟨⟨50, 2, -3⟩, ⟨10, 5, 5⟩⟩ ⟨⟨40, 0, 0⟩, ⟨5, 5, 5⟩⟩ "full" ⟨45, 1, -1⟩
      = ⟨60, 3, -4⟩ := by
  constructor
  · intro data ref tgt s mode
    rfl
  · simp only [transferLab]
    norm_num [Lab.mk.injEq]

end Color

namespace Color

/-- Claim C1 counterexample: passing the zero-pixel buffer to
`computeLabStats` does not fail — the function is total and returns a Stats
record whose mean components are `NaN` (the JavaScript `0 / 0`). -/
theorem computeLabStats_empty_returns_nan :
    (computeLabStats [] 4).mean.L = JSNum.nan ∧
    (computeLabStats [] 4).mean.a = JSNum.nan ∧
    (computeLabStats [] 4).mean.b = JSNum.nan := by
  simp [computeLabStats, samplePixels_nil, jsDivCount]

/-- Claim C1 amended: for every sample step, `computeLabStats` on the empty
buffer raises no error; it returns the record with `NaN` means and
1e-6-floored standard deviations (in JavaScript, `0 / 0 = NaN`,
`Math.sqrt(Math.max(0, NaN)) = NaN`, and `NaN || 1e-6 = 1e-6`). -/
theorem computeLabStats_empty (sampleStep : ℕ) :
    computeLabStats [] sampleStep =
      ⟨⟨JSNum.nan, JSNum.nan, JSNum.nan⟩,
       ⟨JSNum.fin 1e-6, JSNum.fin 1e-6, JSNum.fin 1e-6⟩⟩ := by
  simp [computeLabStats, samplePixels_nil, jsDivCount, jsSub, jsMul, jsMax0,
    jsSqrt, jsOrFloor]

/-- Claim C9: on a non-empty buffer whose pixels all share one RGB color,
`computeLabStats` returns that color's Lab value as the mean and the floor
value 1e-6 as every standard-deviation component. -/
theorem computeLabStats_uniform (data : List Pixel) (sampleStep : ℕ) (c : Pixel)
    (hne : data ≠ [])
    (huni : ∀ p ∈ data, p.r = c.r ∧ p.g = c.g ∧ p.b = c.b) :
    computeLabStats data sampleStep =
      ⟨⟨JSNum.fin (rgbToLab c.r c.g c.b).L, JSNum.fin (rgbToLab c.r c.g c.b).a,
        JSNum.fin (rgbToLab c.r c.g c.b).b⟩,
       ⟨JSNum.fin 1e-6, JSNum.fin 1e-6, JSNum.fin 1e-6⟩⟩ := by
  set lab0 := rgbToLab c.r c.g c.b with hlab0
  set pts := samplePixels (max 1 sampleStep) data with hpts
  have hmem : ∀ p ∈ pts, p ∈ data := samplePixels_subset _ data
  have hptsne : pts ≠ [] := samplePixels_ne_nil _ data hne
  have hrepl : pts.map (fun p => rgbToLab p.r p.g p.b) =
      List.replicate pts.length lab0 := by
    have hlen : (pts.map (fun p => rgbToLab p.r p.g p.b)).length = pts.length :=
      List.length_map _ _
    rw [← hlen]
    apply List.eq_replicate_length.2
    intro x hx
    rcases List.mem_map.1 hx with ⟨p, hp, rfl⟩
    have h := huni p (hmem p hp)
    rw [h.1, h.2.1, h.2.2]
  have hn : pts.length ≠ 0 := fun h => hptsne (List.length_eq_zero.1 h)
  have hnR : (pts.length : ℝ) ≠ 0 := Nat.cast_ne_zero.2 hn
  simp only [computeLabStats, ← hpts, hrepl, List.map_replicate,
    List.sum_replicate, List.length_replicate, nsmul_eq_mul, jsDivCount,
    if_neg hn]
  rw [mul_div_cancel_left₀ _ hnR, mul_div_cancel_left₀ _ hnR,
    mul_div_cancel_left₀ _ hnR, mul_div_cancel_left₀ _ hnR,
    mul_div_cancel_left₀ _ hnR, mul_div_cancel_left₀ _ hnR]
  simp [jsSub, jsMul, jsMax0, jsSqrt, jsOrFloor]

theorem computeLabStats_uniform_witness :
    ([(⟨7, 7, 7, 255⟩ : Pixel)] ≠ [] ∧
      ∀ p ∈ [(⟨7, 7, 7, 255⟩ : Pixel)],
        p.r = (⟨7, 7, 7, 255⟩ : Pixel).r ∧ p.g = (⟨7, 7, 7, 255⟩ : Pixel).g ∧
        p.b = (⟨7, 7, 7, 255⟩ : Pixel).b) ∧
    computeLabStats [⟨7, 7, 7, 255⟩] 4 =
      ⟨⟨JSNum.fin (rgbToLab 7 7 7).L, JSNum.fin (rgbToLab 7 7 7).a,
        JSNum.fin (rgbToLab 7 7 7).b⟩,
       ⟨JSNum.fin 1e-6, JSNum.fin 1e-6, JSNum.fin 1e-6⟩⟩ := by
  refine ⟨⟨by simp, by simp⟩, ?_⟩
  have h := computeLabStats_uniform [⟨7, 7, 7, 255⟩] 4 ⟨7, 7, 7, 255⟩
    (by simp) (by simp)
  simpa using h

end Color

namespace Color

/-- The transfer loop body at the black pixel, with reference mean L = 2.5 and
unit standard deviations, at strength 2: every Lab branch of the conversion
chain stays in its rational (linear) regime, so the result is computable by
exact rational arithmetic. -/
theorem processPixel_black_strength_two :
    processPixel ⟨⟨2.5, 0, 0⟩, ⟨1, 1, 1⟩⟩ ⟨⟨0, 0, 0⟩, ⟨1, 1, 1⟩⟩ 2 "full"
      ⟨0, 0, 0, 255⟩ = ⟨18, 18, 18, 255⟩ := by
  norm_num [processPixel, rgbToLab, transferLab, clampLab, labToRgb,
    srgbToLinear, labPivot, labPivotInv, linearToSrgb, clamp, clampInt,
    blend, jsRound, writeByte, D65, Pixel.mk.injEq]

end Color

namespace Color

/-- Claim C8 counterexample: a Strength of 2 (outside [0, 1]) is not
rejected — `applyReinhardTransfer` runs normally and modifies the buffer
(the black pixel becomes (18, 18, 18)), so no `InvalidConfiguration` error
protects the buffer. -/
theorem reinhard_invalid_strength_modifies_buffer :
    applyReinhardTransfer [⟨0, 0, 0, 255⟩] ⟨⟨2.5, 0, 0⟩, ⟨1, 1, 1⟩⟩
      ⟨⟨0, 0, 0⟩, ⟨1, 1, 1⟩⟩ 2 "full" ≠ [⟨0, 0, 0, 255⟩] := by
  intro h
  rw [applyReinhardTransfer, List.map_cons, List.map_nil,
    processPixel_black_strength_two] at h
  simp [Pixel.mk.injEq] at h

/-- Claim C8 amended: neither transfer nor shift validates its
configuration, and no `InvalidConfiguration` error exists.  Both operations
are total for every Strength (in or out of [0, 1]) and every Mode string;
an unknown Mode is not rejected but silently matches no channel branch, so
the per-pixel Lab values pass through the transfer unchanged while the
buffer is still round-tripped through Lab and blended. -/
theorem reinhard_no_configuration_validation :
    (∀ (data : List Pixel) (ref tgt : Stats) (s : ℝ) (mode : String),
      applyReinhardTransfer data ref tgt s mode =
        data.map (processPixel ref tgt s mode)) ∧
    (∀ (ref tgt : Stats) (mode : String), mode ≠ "full" → mode ≠ "luminance" →
      mode ≠ "chromatic" → ∀ lab : Lab, transferLab ref tgt mode lab = lab) ∧
    (∀ (data : List Pixel) (sh : ShiftRec) (s : ℝ),
      ¬(sh.L.getD 0 = 0 ∧ sh.a.getD 0 = 0 ∧ sh.b.getD 0 = 0) →
      applyLabShift data (some sh) s =
        data.map (shiftPixel (sh.L.getD 0) (sh.a.getD 0) (sh.b.getD 0) s)) := by
  refine ⟨fun data ref tgt s mode => rfl, ?_, ?_⟩
  · intro ref tgt mode h1 h2 h3 lab
    simp [transferLab, h1, h2, h3]
  · intro data sh s h
    rw [applyLabShift]
    exact if_neg h

theorem reinhard_no_configuration_validation_witness :
    (("bogus" : String) ≠ "full" ∧ ("bogus" : String) ≠ "luminance" ∧
      ("bogus" : String) ≠ "chromatic") ∧
    transferLab ⟨⟨2.5, 0, 0⟩, ⟨1, 1, 1⟩⟩ ⟨⟨0, 0, 0⟩, ⟨1, 1, 1⟩⟩ "bogus" ⟨45, 1, -1⟩
      = ⟨45, 1, -1⟩ :=
  ⟨⟨by decide, by decide, by decide⟩,
   reinhard_no_configuration_validation.2.1 _ _ "bogus" (by decide) (by decide)
     (by decide) ⟨45, 1, -1⟩⟩

end Color

/-! ## Round-trip analysis for the color converter

In the exact-real model the Lab pivot and the gamma curves invert exactly,
and the only error source in `labToRgb ∘ rgbToLab` is that the two 3x3
matrices are 7-digit decimal approximations of each other's inverse; that
error is below 5e-6 per linear channel and is absorbed by the final
rounding. -/

namespace Color

theorem cbrt_cube_cancel (c : ℝ) (hc : 0 ≤ c) : (c ^ ((1:ℝ)/3)) ^ (3:ℕ) = c := by
  rw [← Real.rpow_natCast (c ^ ((1:ℝ)/3)) 3, ← Real.rpow_mul hc]
  norm_num

theorem le_rpow_inv_of_pow_le (c x : ℝ) (k : ℕ) (hk : k ≠ 0) (hc : 0 ≤ c)
    (h : c ^ k ≤ x) : c ≤ x ^ ((1:ℝ)/k) := by
  have hx : 0 ≤ x := le_trans (pow_nonneg hc k) h
  have h2 := Real.rpow_le_rpow (pow_nonneg hc k) h
    (by positivity : (0:ℝ) ≤ 1/(k:ℝ))
  rwa [← Real.rpow_natCast c k, ← Real.rpow_mul hc, mul_one_div,
    div_self (by exact_mod_cast hk : (k:ℝ) ≠ 0), Real.rpow_one] at h2

theorem rpow_inv_le_of_le_pow (x c : ℝ) (k : ℕ) (hk : k ≠ 0) (hx : 0 ≤ x)
    (hc : 0 ≤ c) (h : x ≤ c ^ k) : x ^ ((1:ℝ)/k) ≤ c := by
  have h2 := Real.rpow_le_rpow hx h (by positivity : (0:ℝ) ≤ 1/(k:ℝ))
  rwa [← Real.rpow_natCast c k, ← Real.rpow_mul hc, mul_one_div,
    div_self (by exact_mod_cast hk : (k:ℝ) ≠ 0), Real.rpow_one] at h2

theorem rpow_frac_lower (b c : ℝ) (hb : 0 ≤ b) (hc : 0 ≤ c)
    (h : c ^ (5:ℕ) ≤ b ^ (12:ℕ)) : c ≤ b ^ (2.4:ℝ) := by
  have h1 := Real.rpow_le_rpow (pow_nonneg hc 5) h
    (by norm_num : (0:ℝ) ≤ 1/5)
  rw [← Real.rpow_natCast c 5, ← Real.rpow_mul hc, ← Real.rpow_natCast b 12,
    ← Real.rpow_mul hb] at h1
  rw [(by norm_num : ((5:ℕ):ℝ) * (1/5) = 1),
    (by norm_num : ((12:ℕ):ℝ) * (1/5) = 2.4), Real.rpow_one] at h1
  exact h1

theorem rpow_frac_upper (b c : ℝ) (hb : 0 ≤ b) (hc : 0 ≤ c)
    (h : b ^ (12:ℕ) ≤ c ^ (5:ℕ)) : b ^ (2.4:ℝ) ≤ c := by
  have h1 := Real.rpow_le_rpow (pow_nonneg hb 12) h
    (by norm_num : (0:ℝ) ≤ 1/5)
  rw [← Real.rpow_natCast c 5, ← Real.rpow_mul hc, ← Real.rpow_natCast b 12,
    ← Real.rpow_mul hb] at h1
  rw [(by norm_num : ((5:ℕ):ℝ) * (1/5) = 1),
    (by norm_num : ((12:ℕ):ℝ) * (1/5) = 2.4), Real.rpow_one] at h1
  exact h1

/-- The Lab pivot is inverted exactly by `labPivotInv` on nonnegative
inputs: the cube-root branch is cancelled by the cube, and every value of
the linear branch on [0, 0.008856] has cube at most 0.008856 (a rational
fact), so the inverse takes the matching branch. -/
theorem labPivotInv_labPivot (t : ℝ) (ht : 0 ≤ t) :
    labPivotInv (labPivot t) = t := by
  rw [labPivot]
  by_cases h : 0.008856 < t
  · rw [if_pos h, jsCbrt, if_pos ht, labPivotInv]
    simp only [cbrt_cube_cancel t ht]
    rw [if_pos h]
  · rw [if_neg h]
    push_neg at h
    have h2 : 7.787 * t + 16/116 ≤ 7.787 * 0.008856 + 16/116 := by linarith
    have h3 : (7.787 * t + 16/116) ^ (3:ℕ) ≤ (7.787 * 0.008856 + 16/116) ^ (3:ℕ) :=
      pow_le_pow_left₀ (by linarith) h2 3
    have h4 : (7.787 * 0.008856 + 16/116 : ℝ) ^ (3:ℕ) ≤ 0.008856 := by norm_num
    simp only [labPivotInv]
    rw [if_neg (not_lt.2 (le_trans h3 h4))]
    ring

end Color

namespace Color

theorem srgbToLinear_nonneg (v : ℝ) (hv : 0 ≤ v) : 0 ≤ srgbToLinear v := by
  rw [srgbToLinear]
  split_ifs with h
  · positivity
  · positivity

theorem srgbToLinear_le_one (v : ℝ) (hv0 : 0 ≤ v) (hv : v ≤ 1) :
    srgbToLinear v ≤ 1 := by
  rw [srgbToLinear]
  split_ifs with h
  · rw [div_le_one (by norm_num)]
    linarith
  · apply Real.rpow_le_one (by positivity) _ (by norm_num)
    rw [div_le_one (by norm_num)]
    linarith

/-- One-sided Lipschitz bound for `t ↦ t ^ (5/12)` on `[0.0031, ∞)`, via the
Bernoulli inequality for exponents in [0, 1]. -/
theorem rpow_five_twelfth_diff_le (x y : ℝ) (hx : 0.0031 ≤ x) (hy : 0.0031 ≤ y)
    (hyx : y ≤ x) : x ^ ((5:ℝ)/12) - y ^ ((5:ℝ)/12) ≤ 100 * (x - y) := by
  have hy0 : (0:ℝ) < y := by linarith
  have hxy1 : 1 ≤ x / y := (one_le_div hy0).2 hyx
  have hs0 : 0 ≤ x / y - 1 := by linarith
  have hyc0 : (0:ℝ) < y ^ ((5:ℝ)/12) := Real.rpow_pos_of_pos hy0 _
  have hmul : x ^ ((5:ℝ)/12) = y ^ ((5:ℝ)/12) * (x/y) ^ ((5:ℝ)/12) := by
    rw [← Real.mul_rpow hy0.le (by positivity)]
    congr 1
    field_simp
  have hbern : (x/y) ^ ((5:ℝ)/12) ≤ 1 + (5/12) * (x/y - 1) := by
    have h := rpow_one_add_le_one_add_mul_self
      (s := x/y - 1) (by linarith) (p := (5:ℝ)/12) (by norm_num) (by norm_num)
    rwa [(by ring : (1:ℝ) + (x/y - 1) = x/y)] at h
  have h712 : (0.034:ℝ) ≤ y ^ ((7:ℝ)/12) := by
    have h1 : (0.034:ℝ)^(12:ℕ) ≤ y^(7:ℕ) := by
      calc (0.034:ℝ)^(12:ℕ) ≤ (0.0031:ℝ)^(7:ℕ) := by norm_num
      _ ≤ y^(7:ℕ) := pow_le_pow_left₀ (by norm_num) hy 7
    have h2 := Real.rpow_le_rpow (by positivity) h1 (by norm_num : (0:ℝ) ≤ 1/12)
    rwa [← Real.rpow_natCast (0.034:ℝ) 12, ← Real.rpow_mul (by norm_num),
      ← Real.rpow_natCast y 7, ← Real.rpow_mul hy0.le,
      (by norm_num : ((12:ℕ):ℝ) * (1/12) = 1),
      (by norm_num : ((7:ℕ):ℝ) * (1/12) = 7/12), Real.rpow_one] at h2
  have hsplit : y ^ ((5:ℝ)/12) * y ^ ((7:ℝ)/12) = y := by
    rw [← Real.rpow_add hy0]
    norm_num
  have hcyc : (5:ℝ)/12 * y ^ ((5:ℝ)/12) ≤ 100 * y := by
    have step : (5:ℝ)/12 * y ^ ((5:ℝ)/12) ≤ (100 * y ^ ((7:ℝ)/12)) * y ^ ((5:ℝ)/12) := by
      apply mul_le_mul_of_nonneg_right _ hyc0.le
      nlinarith [h712]
    calc (5:ℝ)/12 * y ^ ((5:ℝ)/12) ≤ (100 * y ^ ((7:ℝ)/12)) * y ^ ((5:ℝ)/12) := step
    _ = 100 * (y ^ ((5:ℝ)/12) * y ^ ((7:ℝ)/12)) := by ring
    _ = 100 * y := by rw [hsplit]
  have h1 : x ^ ((5:ℝ)/12) ≤ y ^ ((5:ℝ)/12) * (1 + (5/12) * (x/y - 1)) := by
    rw [hmul]
    exact mul_le_mul_of_nonneg_left hbern hyc0.le
  have hs_mul : (x/y - 1) * y = x - y := by field_simp
  nlinarith [h1, hcyc, hs_mul, hs0, hyc0]

theorem rpow_five_twelfth_diff (a b : ℝ) (ha : 0.0031 ≤ a) (hb : 0.0031 ≤ b) :
    |a ^ ((5:ℝ)/12) - b ^ ((5:ℝ)/12)| ≤ 100 * |a - b| := by
  rcases le_total b a with h | h
  · rw [abs_of_nonneg (sub_nonneg.2 (Real.rpow_le_rpow (by linarith) h (by norm_num))),
      abs_of_nonneg (sub_nonneg.2 h)]
    exact rpow_five_twelfth_diff_le a b ha hb h
  · rw [abs_of_nonpos (sub_nonpos.2 (Real.rpow_le_rpow (by linarith) h (by norm_num))),
      abs_of_nonpos (sub_nonpos.2 h)]
    have := rpow_five_twelfth_diff_le b a hb ha h
    linarith

end Color

namespace Color

theorem jsRound_eq_of_near (n : ℤ) (x : ℝ) (h1 : -(1/2) ≤ x - n) (h2 : x - n < 1/2) :
    jsRound x = n := by
  rw [jsRound, Int.floor_eq_iff]
  constructor
  · linarith
  · push_cast
    linarith

theorem clampInt_id (n : ℤ) (h0 : 0 ≤ n) (h255 : n ≤ 255) : clampInt n 0 255 = n := by
  simp only [clampInt]
  omega

/-- Per-channel reconstruction: if `t` is within 5e-6 of the linear value of
byte `n`, then gamma-encoding `t`, scaling, rounding and clamping recovers
`n` exactly.  For `n ≤ 10` both gamma branches are linear and the error is
scaled by 12.92 * 255; for `n ≥ 11` both inputs lie in the power branch
above 0.0031308 and the 5/12-power is 100-Lipschitz there. -/
theorem byte_channel_roundtrip (n : ℤ) (hn0 : 0 ≤ n) (hn255 : n ≤ 255) (t : ℝ)
    (ht : |t - srgbToLinear ((n:ℝ) / 255)| ≤ 5e-6) :
    clampInt (jsRound (linearToSrgb t * 255)) 0 255 = n := by
  have hnr0 : (0:ℝ) ≤ (n:ℝ) := by exact_mod_cast hn0
  have hnr255 : (n:ℝ) ≤ 255 := by exact_mod_cast hn255
  rcases le_or_lt n 10 with h10 | h11
  · -- dark byte: both gamma curves stay in the linear branch
    have hnr10 : (n:ℝ) ≤ 10 := by exact_mod_cast h10
    have hv : (n:ℝ)/255 ≤ 0.04045 := by
      rw [div_le_iff (by norm_num)]
      linarith
    rw [srgbToLinear, if_pos hv] at ht
    have habs := abs_le.1 ht
    have hlinval : (n:ℝ)/255/12.92 ≤ 0.00304 := by
      rw [div_div, div_le_iff (by norm_num)]
      nlinarith
    have htle : t ≤ 0.0031308 := by linarith [habs.2]
    rw [linearToSrgb, if_pos htle]
    have hid : 12.92 * ((n:ℝ)/255/12.92) * 255 = n := by
      field_simp
      ring
    have hr : jsRound (12.92 * t * 255) = n := by
      apply jsRound_eq_of_near
      · nlinarith [habs.1]
      · nlinarith [habs.2]
    rw [hr]
    exact clampInt_id n hn0 hn255
  · -- bright byte: both gamma curves stay in the power branch
    have hnr11 : (11:ℝ) ≤ (n:ℝ) := by exact_mod_cast h11
    have hv : ¬ ((n:ℝ)/255 ≤ 0.04045) := by
      push_neg
      rw [lt_div_iff (by norm_num)]
      linarith
    set base := ((n:ℝ)/255 + 0.055) / 1.055 with hbase
    have hn255div : (n:ℝ)/255 ≤ 1 := by
      rw [div_le_one (by norm_num)]
      linarith
    have hn0div : (0:ℝ) ≤ (n:ℝ)/255 := by positivity
    have hb0 : (0:ℝ) < base := by
      rw [hbase]
      positivity
    have hb1 : base ≤ 1 := by
      rw [hbase, div_le_one (by norm_num)]
      linarith
    have hbl : (1001:ℝ)/10761 ≤ base := by
      have h1 : ((11:ℝ)/255 + 0.055)/1.055 ≤ base := by
        rw [hbase]
        gcongr
      have heq : ((11:ℝ)/255 + 0.055)/1.055 = (1001:ℝ)/10761 := by norm_num
      linarith
    rw [srgbToLinear, if_neg hv, ← hbase] at ht
    have hlin_lo : (0.00332:ℝ) ≤ base ^ (2.4:ℝ) := by
      refine le_trans ?_ (Real.rpow_le_rpow (by norm_num) hbl (by norm_num))
      exact rpow_frac_lower _ _ (by norm_num) (by norm_num) (by norm_num)
    have hlin_hi : base ^ (2.4:ℝ) ≤ 1 := Real.rpow_le_one hb0.le hb1 (by norm_num)
    have habs := abs_le.1 ht
    have ht_lo : 0.0031308 < t := by linarith [habs.1]
    rw [linearToSrgb, if_neg (not_le.2 ht_lo)]
    have hexp : ((1:ℝ)/2.4) = (5:ℝ)/12 := by norm_num
    have hinv : (base ^ (2.4:ℝ)) ^ ((5:ℝ)/12) = base := by
      rw [← Real.rpow_mul hb0.le, (by norm_num : (2.4:ℝ) * ((5:ℝ)/12) = 1),
        Real.rpow_one]
    have hdiff : |t ^ ((5:ℝ)/12) - (base ^ (2.4:ℝ)) ^ ((5:ℝ)/12)| ≤
        100 * |t - base ^ (2.4:ℝ)| :=
      rpow_five_twelfth_diff _ _ (by linarith) (by linarith)
    rw [hinv] at hdiff
    have hTb := abs_le.1 (le_trans hdiff (by nlinarith [ht] :
      100 * |t - base ^ (2.4:ℝ)| ≤ 5e-4))
    have hvid : (1.055 * base - 0.055) * 255 = (n:ℝ) := by
      rw [hbase]
      field_simp
      ring
    rw [hexp]
    have hr : jsRound ((1.055 * t ^ ((5:ℝ)/12) - 0.055) * 255) = n := by
      apply jsRound_eq_of_near
      · nlinarith [hTb.1]
      · nlinarith [hTb.2]
    rw [hr]
    exact clampInt_id n hn0 hn255

end Color

namespace Color

/-- `labToRgb` applied to a Lab triple built from pivot values recomputes
`fx`, `fy`, `fz` exactly and inverts each pivot exactly. -/
theorem labToRgb_pivot_args (u v w : ℝ) (hu : 0 ≤ u) (hv : 0 ≤ v) (hw : 0 ≤ w) :
    labToRgb (116 * labPivot v - 16) (500 * (labPivot u - labPivot v))
      (200 * (labPivot v - labPivot w)) =
      ⟨clampInt (jsRound (linearToSrgb (u * D65.x * 3.2404542 +
         v * D65.y * (-1.5371385) + w * D65.z * (-0.4985314)) * 255)) 0 255,
       clampInt (jsRound (linearToSrgb (u * D65.x * (-0.9692660) +
         v * D65.y * 1.8760108 + w * D65.z * 0.0415560) * 255)) 0 255,
       clampInt (jsRound (linearToSrgb (u * D65.x * 0.0556434 +
         v * D65.y * (-0.2040259) + w * D65.z * 1.0572252) * 255)) 0 255⟩ := by
  simp only [labToRgb]
  have e1 : (116 * labPivot v - 16 + 16) / 116 = labPivot v := by ring
  rw [e1]
  have e2 : 500 * (labPivot u - labPivot v) / 500 + labPivot v = labPivot u := by
    ring
  rw [e2]
  have e3 : labPivot v - 200 * (labPivot v - labPivot w) / 200 = labPivot w := by
    ring
  rw [e3]
  rw [labPivotInv_labPivot u hu, labPivotInv_labPivot v hv,
    labPivotInv_labPivot w hw]

set_option maxHeartbeats 2000000 in
/-- The full exact round trip: in the real-number model,
`labToRgb (rgbToLab r g b)` returns `(r, g, b)` unchanged for every byte
triple.  The pivots and gamma curves invert exactly; the two decimal
matrices compose to within 5e-6 of the identity on [0,1]^3, and the final
rounding absorbs that error. -/
theorem roundtrip_core (r g b : ℤ) (hr0 : 0 ≤ r) (hr1 : r ≤ 255) (hg0 : 0 ≤ g)
    (hg1 : g ≤ 255) (hb0 : 0 ≤ b) (hb1 : b ≤ 255) :
    labToRgb (rgbToLab (r:ℝ) (g:ℝ) (b:ℝ)).L (rgbToLab (r:ℝ) (g:ℝ) (b:ℝ)).a
      (rgbToLab (r:ℝ) (g:ℝ) (b:ℝ)).b = ⟨r, g, b⟩ := by
  have hrd0 : (0:ℝ) ≤ (r:ℝ)/255 := by
    apply div_nonneg _ (by norm_num)
    exact_mod_cast hr0
  have hrd1 : (r:ℝ)/255 ≤ 1 := by
    rw [div_le_one (by norm_num)]
    exact_mod_cast hr1
  have hgd0 : (0:ℝ) ≤ (g:ℝ)/255 := by
    apply div_nonneg _ (by norm_num)
    exact_mod_cast hg0
  have hgd1 : (g:ℝ)/255 ≤ 1 := by
    rw [div_le_one (by norm_num)]
    exact_mod_cast hg1
  have hbd0 : (0:ℝ) ≤ (b:ℝ)/255 := by
    apply div_nonneg _ (by norm_num)
    exact_mod_cast hb0
  have hbd1 : (b:ℝ)/255 ≤ 1 := by
    rw [div_le_one (by norm_num)]
    exact_mod_cast hb1
  have hlr0 := srgbToLinear_nonneg _ hrd0
  have hlr1 := srgbToLinear_le_one _ hrd0 hrd1
  have hlg0 := srgbToLinear_nonneg _ hgd0
  have hlg1 := srgbToLinear_le_one _ hgd0 hgd1
  have hlb0 := srgbToLinear_nonneg _ hbd0
  have hlb1 := srgbToLinear_le_one _ hbd0 hbd1
  set X := srgbToLinear ((r:ℝ)/255) * 0.4124564 + srgbToLinear ((g:ℝ)/255) * 0.3575761 +
    srgbToLinear ((b:ℝ)/255) * 0.1804375 with hX
  set Y := srgbToLinear ((r:ℝ)/255) * 0.2126729 + srgbToLinear ((g:ℝ)/255) * 0.7151522 +
    srgbToLinear ((b:ℝ)/255) * 0.0721750 with hY
  set Z := srgbToLinear ((r:ℝ)/255) * 0.0193339 + srgbToLinear ((g:ℝ)/255) * 0.1191920 +
    srgbToLinear ((b:ℝ)/255) * 0.9503041 with hZ
  have hX0 : 0 ≤ X := by
    rw [hX]
    have h1 : (0:ℝ) ≤ srgbToLinear ((r:ℝ)/255) * 0.4124564 :=
      mul_nonneg hlr0 (by norm_num)
    have h2 : (0:ℝ) ≤ srgbToLinear ((g:ℝ)/255) * 0.3575761 :=
      mul_nonneg hlg0 (by norm_num)
    have h3 : (0:ℝ) ≤ srgbToLinear ((b:ℝ)/255) * 0.1804375 :=
      mul_nonneg hlb0 (by norm_num)
    linarith
  have hY0 : 0 ≤ Y := by
    rw [hY]
    have h1 : (0:ℝ) ≤ srgbToLinear ((r:ℝ)/255) * 0.2126729 :=
      mul_nonneg hlr0 (by norm_num)
    have h2 : (0:ℝ) ≤ srgbToLinear ((g:ℝ)/255) * 0.7151522 :=
      mul_nonneg hlg0 (by norm_num)
    have h3 : (0:ℝ) ≤ srgbToLinear ((b:ℝ)/255) * 0.0721750 :=
      mul_nonneg hlb0 (by norm_num)
    linarith
  have hZ0 : 0 ≤ Z := by
    rw [hZ]
    have h1 : (0:ℝ) ≤ srgbToLinear ((r:ℝ)/255) * 0.0193339 :=
      mul_nonneg hlr0 (by norm_num)
    have h2 : (0:ℝ) ≤ srgbToLinear ((g:ℝ)/255) * 0.1191920 :=
      mul_nonneg hlg0 (by norm_num)
    have h3 : (0:ℝ) ≤ srgbToLinear ((b:ℝ)/255) * 0.9503041 :=
      mul_nonneg hlb0 (by norm_num)
    linarith
  have hu : (0:ℝ) ≤ X / D65.x := div_nonneg hX0 (by norm_num [D65])
  have hv : (0:ℝ) ≤ Y / D65.y := div_nonneg hY0 (by norm_num [D65])
  have hw : (0:ℝ) ≤ Z / D65.z := div_nonneg hZ0 (by norm_num [D65])
  have hfwd : rgbToLab (r:ℝ) (g:ℝ) (b:ℝ) =
      ⟨116 * labPivot (Y / D65.y) - 16,
       500 * (labPivot (X / D65.x) - labPivot (Y / D65.y)),
       200 * (labPivot (Y / D65.y) - labPivot (Z / D65.z))⟩ := rfl
  rw [hfwd]
  show labToRgb (116 * labPivot (Y / D65.y) - 16)
    (500 * (labPivot (X / D65.x) - labPivot (Y / D65.y)))
    (200 * (labPivot (Y / D65.y) - labPivot (Z / D65.z))) = ⟨r, g, b⟩
  rw [labToRgb_pivot_args (X / D65.x) (Y / D65.y) (Z / D65.z) hu hv hw]
  have hc1 : X / D65.x * D65.x = X := div_mul_cancel₀ X (by norm_num [D65])
  have hc2 : Y / D65.y * D65.y = Y := div_mul_cancel₀ Y (by norm_num [D65])
  have hc3 : Z / D65.z * D65.z = Z := div_mul_cancel₀ Z (by norm_num [D65])
  rw [hc1, hc2, hc3]
  have herr1 : |X * 3.2404542 + Y * (-1.5371385) + Z * (-0.4985314) -
      srgbToLinear ((r:ℝ)/255)| ≤ 5e-6 := by
    rw [hX, hY, hZ, abs_le]
    constructor <;> nlinarith [hlr0, hlr1, hlg0, hlg1, hlb0, hlb1]
  have herr2 : |X * (-0.9692660) + Y * 1.8760108 + Z * 0.0415560 -
      srgbToLinear ((g:ℝ)/255)| ≤ 5e-6 := by
    rw [hX, hY, hZ, abs_le]
    constructor <;> nlinarith [hlr0, hlr1, hlg0, hlg1, hlb0, hlb1]
  have herr3 : |X * 0.0556434 + Y * (-0.2040259) + Z * 1.0572252 -
      srgbToLinear ((b:ℝ)/255)| ≤ 5e-6 := by
    rw [hX, hY, hZ, abs_le]
    constructor <;> nlinarith [hlr0, hlr1, hlg0, hlg1, hlb0, hlb1]
  rw [RGB.mk.injEq]
  exact ⟨byte_channel_roundtrip r hr0 hr1 _ herr1,
    byte_channel_roundtrip g hg0 hg1 _ herr2,
    byte_channel_roundtrip b hb0 hb1 _ herr3⟩

end Color

namespace Color

/-- Claim C3: for every integer RGB triple with channels in [0, 255], the
round trip `labToRgb (rgbToLab r g b)` returns channels that differ from
the inputs by at most 1 (in the exact-real model the round trip is in fact
exact). -/
theorem labToRgb_rgbToLab_within_one (r g b : ℤ) (hr : 0 ≤ r ∧ r ≤ 255)
    (hg : 0 ≤ g ∧ g ≤ 255) (hb : 0 ≤ b ∧ b ≤ 255) :
    |(labToRgb (rgbToLab (r:ℝ) (g:ℝ) (b:ℝ)).L (rgbToLab (r:ℝ) (g:ℝ) (b:ℝ)).a
        (rgbToLab (r:ℝ) (g:ℝ) (b:ℝ)).b).r - r| ≤ 1 ∧
    |(labToRgb (rgbToLab (r:ℝ) (g:ℝ) (b:ℝ)).L (rgbToLab (r:ℝ) (g:ℝ) (b:ℝ)).a
        (rgbToLab (r:ℝ) (g:ℝ) (b:ℝ)).b).g - g| ≤ 1 ∧
    |(labToRgb (rgbToLab (r:ℝ) (g:ℝ) (b:ℝ)).L (rgbToLab (r:ℝ) (g:ℝ) (b:ℝ)).a
        (rgbToLab (r:ℝ) (g:ℝ) (b:ℝ)).b).b - b| ≤ 1 := by
  rw [roundtrip_core r g b hr.1 hr.2 hg.1 hg.2 hb.1 hb.2]
  norm_num

theorem labToRgb_rgbToLab_within_one_witness :
    ((0:ℤ) ≤ 0 ∧ (0:ℤ) ≤ 255) ∧
    |(labToRgb (rgbToLab ((0:ℤ):ℝ) ((0:ℤ):ℝ) ((0:ℤ):ℝ)).L
        (rgbToLab ((0:ℤ):ℝ) ((0:ℤ):ℝ) ((0:ℤ):ℝ)).a
        (rgbToLab ((0:ℤ):ℝ) ((0:ℤ):ℝ) ((0:ℤ):ℝ)).b).r - 0| ≤ 1 :=
  ⟨⟨by decide, by decide⟩,
   (labToRgb_rgbToLab_within_one 0 0 0 ⟨by decide, by decide⟩
     ⟨by decide, by decide⟩ ⟨by decide, by decide⟩).1⟩

end Color

/-! ## Lab range bounds (for the clamp analysis of the transfer path) -/

namespace Color

theorem labPivot_ge (t : ℝ) (ht : 0 ≤ t) : 16/116 ≤ labPivot t := by
  rw [labPivot]
  split_ifs with h
  · rw [jsCbrt, if_pos ht]
    have h1 : ((16:ℝ)/116) ^ (3:ℕ) ≤ t := by
      calc ((16:ℝ)/116) ^ (3:ℕ) ≤ 0.008856 := by norm_num
      _ ≤ t := le_of_lt h
    exact le_rpow_inv_of_pow_le _ _ 3 (by norm_num) (by norm_num) h1
  · linarith

theorem labPivot_le_one (t : ℝ) (ht0 : 0 ≤ t) (ht : t ≤ 1) : labPivot t ≤ 1 := by
  rw [labPivot]
  split_ifs with h
  · rw [jsCbrt, if_pos ht0]
    exact Real.rpow_le_one ht0 ht (by norm_num)
  · push_neg at h
    linarith

/-- Uniform bound on a difference of two Lab pivot values from a ratio bound
`t ≤ k^3 * s` and a magnitude bound `t ≤ m^3`.  All branch combinations of
the two pivots are covered. -/
theorem labPivot_diff_le (s t k m T : ℝ) (hs : 0 ≤ s) (ht : 0 ≤ t)
    (hk : 1 ≤ k) (hm : 0 ≤ m) (htk : t ≤ k^(3:ℕ) * s) (htm : t ≤ m^(3:ℕ))
    (hT1 : m * (1 - 1/k) ≤ T) (hT2 : k * 0.2069 - 16/116 ≤ T)
    (hT3 : 0.069 ≤ T) : labPivot t - labPivot s ≤ T := by
  have hk0 : (0:ℝ) < k := by linarith
  by_cases hbt : (0.008856:ℝ) < t
  · have htv : labPivot t = t ^ ((1:ℝ)/3) := by
      rw [labPivot, if_pos hbt, jsCbrt, if_pos ht]
    by_cases hbs : (0.008856:ℝ) < s
    · have hsv : labPivot s = s ^ ((1:ℝ)/3) := by
        rw [labPivot, if_pos hbs, jsCbrt, if_pos hs]
      rw [htv, hsv]
      have h1 : t ^ ((1:ℝ)/3) ≤ k * s ^ ((1:ℝ)/3) := by
        have h0 : t ^ ((1:ℝ)/3) ≤ (k^(3:ℕ) * s) ^ ((1:ℝ)/3) :=
          Real.rpow_le_rpow ht htk (by norm_num)
        rwa [Real.mul_rpow (pow_nonneg hk0.le 3) hs, ← Real.rpow_natCast k 3,
          ← Real.rpow_mul hk0.le, (by norm_num : ((3:ℕ):ℝ) * ((1:ℝ)/3) = 1),
          Real.rpow_one] at h0
      have h2 : t ^ ((1:ℝ)/3) ≤ m :=
        rpow_inv_le_of_le_pow t m 3 (by norm_num) ht hm htm
      have h3 : t ^ ((1:ℝ)/3) / k ≤ s ^ ((1:ℝ)/3) := by
        rw [div_le_iff₀ hk0]
        linarith [h1]
      have h4 : t ^ ((1:ℝ)/3) * (1 - 1/k) ≤ m * (1 - 1/k) := by
        apply mul_le_mul_of_nonneg_right h2
        have h5 : 1/k ≤ 1 := by
          rw [div_le_one hk0]
          linarith
        linarith
      have expand : t ^ ((1:ℝ)/3) - t ^ ((1:ℝ)/3)/k = t ^ ((1:ℝ)/3) * (1 - 1/k) := by
        ring
      linarith
    · have hsv : labPivot s = 7.787 * s + 16/116 := by rw [labPivot, if_neg hbs]
      rw [htv, hsv]
      push_neg at hbs
      have h1 : t ≤ k^(3:ℕ) * 0.008856 := by
        refine le_trans htk ?_
        have := pow_nonneg hk0.le 3
        nlinarith
      have h2 : t ^ ((1:ℝ)/3) ≤ k * 0.2069 := by
        apply rpow_inv_le_of_le_pow t (k * 0.2069) 3 (by norm_num) ht
          (by positivity)
        calc t ≤ k^(3:ℕ) * 0.008856 := h1
        _ ≤ k^(3:ℕ) * (0.2069:ℝ)^(3:ℕ) := by
            have := pow_nonneg hk0.le 3
            nlinarith
        _ = (k * 0.2069)^(3:ℕ) := by ring
      linarith
  · have htv : labPivot t = 7.787 * t + 16/116 := by rw [labPivot, if_neg hbt]
    rw [htv]
    push_neg at hbt
    have h2 := labPivot_ge s hs
    linarith

/-- Tight bound for the positive `a`-channel direction
(`fx - fy ≤ 0.254`, i.e. `a ≤ 127`): the uniform ratio bound suffices below
0.6237 and the cube-difference identity handles the bright corner. -/
theorem labPivot_diff_le_a_upper (u v : ℝ) (hu : 0 ≤ u) (hv : 0 ≤ v)
    (huv : u ≤ 2.631 * v) (hu1 : u ≤ 1) (huvd : u - v ≤ 0.339) :
    labPivot u - labPivot v ≤ 0.254 := by
  rcases le_or_lt u 0.6237 with hsplit | hsplit
  · apply labPivot_diff_le v u 1.381 0.8545 0.254 hv hu (by norm_num)
      (by norm_num)
    · nlinarith
    · nlinarith
    · norm_num
    · norm_num
    · norm_num
  · have hvlo : (0.2847:ℝ) ≤ v := by linarith
    have hbu : (0.008856:ℝ) < u := by linarith
    have hbv : (0.008856:ℝ) < v := by linarith
    have huv' : labPivot u = u ^ ((1:ℝ)/3) := by
      rw [labPivot, if_pos hbu, jsCbrt, if_pos hu]
    have hvv' : labPivot v = v ^ ((1:ℝ)/3) := by
      rw [labPivot, if_pos hbv, jsCbrt, if_pos hv]
    rw [huv', hvv']
    have hA3 : (u ^ ((1:ℝ)/3))^(3:ℕ) = u := cbrt_cube_cancel u hu
    have hB3 : (v ^ ((1:ℝ)/3))^(3:ℕ) = v := cbrt_cube_cancel v hv
    have hAlo : (0.8543:ℝ) ≤ u ^ ((1:ℝ)/3) := by
      apply le_rpow_inv_of_pow_le _ _ 3 (by norm_num) (by norm_num)
      calc ((0.8543:ℝ))^(3:ℕ) ≤ 0.6237 := by norm_num
      _ ≤ u := le_of_lt hsplit
    have hBlo : (0.6578:ℝ) ≤ v ^ ((1:ℝ)/3) := by
      apply le_rpow_inv_of_pow_le _ _ 3 (by norm_num) (by norm_num)
      calc ((0.6578:ℝ))^(3:ℕ) ≤ 0.2847 := by norm_num
      _ ≤ v := hvlo
    set A := u ^ ((1:ℝ)/3) with hA
    set B := v ^ ((1:ℝ)/3) with hB
    have hid : (A - B) * (A^2 + A*B + B^2) = u - v := by
      have h3 : A^(3:ℕ) - B^(3:ℕ) = (A - B) * (A^2 + A*B + B^2) := by ring
      rw [hA3, hB3] at h3
      linarith
    have hden : (1.7244:ℝ) ≤ A^2 + A*B + B^2 := by nlinarith [hAlo, hBlo]
    nlinarith [hid, hden, huvd]

end Color

namespace Color

theorem clamp_id (x lo hi : ℝ) (h1 : lo ≤ x) (h2 : x ≤ hi) : clamp x lo hi = x := by
  rw [clamp, max_eq_right h1, min_eq_right h2]

theorem srgbToLinear_byte_le (n : ℤ) (h0 : 0 ≤ n) (h254 : n ≤ 254) :
    srgbToLinear ((n:ℝ)/255) ≤ 0.999993 := by
  have hnr0 : (0:ℝ) ≤ (n:ℝ) := by exact_mod_cast h0
  have hnr254 : (n:ℝ) ≤ 254 := by exact_mod_cast h254
  rw [srgbToLinear]
  split_ifs with h
  · rw [div_div, div_le_iff₀ (by norm_num)]
    nlinarith
  · have hb0 : (0:ℝ) ≤ ((n:ℝ)/255 + 0.055) / 1.055 := by positivity
    have hble : ((n:ℝ)/255 + 0.055) / 1.055 ≤ (10721:ℝ)/10761 := by
      rw [div_le_iff₀ (by norm_num)]
      nlinarith
    calc (((n:ℝ)/255 + 0.055) / 1.055) ^ (2.4:ℝ)
        ≤ ((10721:ℝ)/10761) ^ (2.4:ℝ) :=
          Real.rpow_le_rpow hb0 hble (by norm_num)
    _ ≤ 0.999993 := rpow_frac_upper _ _ (by norm_num) (by norm_num) (by norm_num)

set_option maxHeartbeats 3000000 in
/-- For every byte triple except pure white, the Lab value of
`rgbToLab` already lies inside the clamp ranges (L in [0, 100], a and b in
[-128, 127]), so `clampLab` is the identity on it.  (Pure white exceeds
L = 100 by about 4e-6 because the y-row of the forward matrix sums to
1.0000001.) -/
theorem clampLab_rgbToLab_id (r g b : ℤ) (hr0 : 0 ≤ r) (hr1 : r ≤ 255)
    (hg0 : 0 ≤ g) (hg1 : g ≤ 255) (hb0 : 0 ≤ b) (hb1 : b ≤ 255)
    (hnw : ¬(r = 255 ∧ g = 255 ∧ b = 255)) :
    clampLab (rgbToLab (r:ℝ) (g:ℝ) (b:ℝ)) = rgbToLab (r:ℝ) (g:ℝ) (b:ℝ) := by
  have hrd0 : (0:ℝ) ≤ (r:ℝ)/255 := by
    apply div_nonneg _ (by norm_num)
    exact_mod_cast hr0
  have hrd1 : (r:ℝ)/255 ≤ 1 := by
    rw [div_le_one (by norm_num)]
    exact_mod_cast hr1
  have hgd0 : (0:ℝ) ≤ (g:ℝ)/255 := by
    apply div_nonneg _ (by norm_num)
    exact_mod_cast hg0
  have hgd1 : (g:ℝ)/255 ≤ 1 := by
    rw [div_le_one (by norm_num)]
    exact_mod_cast hg1
  have hbd0 : (0:ℝ) ≤ (b:ℝ)/255 := by
    apply div_nonneg _ (by norm_num)
    exact_mod_cast hb0
  have hbd1 : (b:ℝ)/255 ≤ 1 := by
    rw [div_le_one (by norm_num)]
    exact_mod_cast hb1
  have hlr0 := srgbToLinear_nonneg _ hrd0
  have hlr1 := srgbToLinear_le_one _ hrd0 hrd1
  have hlg0 := srgbToLinear_nonneg _ hgd0
  have hlg1 := srgbToLinear_le_one _ hgd0 hgd1
  have hlb0 := srgbToLinear_nonneg _ hbd0
  have hlb1 := srgbToLinear_le_one _ hbd0 hbd1
  set X := srgbToLinear ((r:ℝ)/255) * 0.4124564 + srgbToLinear ((g:ℝ)/255) * 0.3575761 +
    srgbToLinear ((b:ℝ)/255) * 0.1804375 with hX
  set Y := srgbToLinear ((r:ℝ)/255) * 0.2126729 + srgbToLinear ((g:ℝ)/255) * 0.7151522 +
    srgbToLinear ((b:ℝ)/255) * 0.0721750 with hY
  set Z := srgbToLinear ((r:ℝ)/255) * 0.0193339 + srgbToLinear ((g:ℝ)/255) * 0.1191920 +
    srgbToLinear ((b:ℝ)/255) * 0.9503041 with hZ
  have hX0 : 0 ≤ X := by
    rw [hX]
    nlinarith
  have hY0 : 0 ≤ Y := by
    rw [hY]
    nlinarith
  have hZ0 : 0 ≤ Z := by
    rw [hZ]
    nlinarith
  have hX1 : X ≤ 0.95047 := by
    rw [hX]
    nlinarith
  have hY1w : Y ≤ 1.0000001 := by
    rw [hY]
    nlinarith
  have hZ1 : Z ≤ 1.08883 := by
    rw [hZ]
    nlinarith
  have hu : (0:ℝ) ≤ X / D65.x := div_nonneg hX0 (by norm_num [D65])
  have hwz : (0:ℝ) ≤ Z / D65.z := div_nonneg hZ0 (by norm_num [D65])
  -- one channel is at most 254, so Y stays at most 1
  have hY1 : Y ≤ 1 := by
    have hcase : r ≤ 254 ∨ g ≤ 254 ∨ b ≤ 254 := by omega
    rcases hcase with hc | hc | hc
    · have := srgbToLinear_byte_le r hr0 hc
      rw [hY]
      nlinarith
    · have := srgbToLinear_byte_le g hg0 hc
      rw [hY]
      nlinarith
    · have := srgbToLinear_byte_le b hb0 hc
      rw [hY]
      nlinarith
  have hfwd : rgbToLab (r:ℝ) (g:ℝ) (b:ℝ) =
      ⟨116 * labPivot (Y / D65.y) - 16,
       500 * (labPivot (X / D65.x) - labPivot (Y / D65.y)),
       200 * (labPivot (Y / D65.y) - labPivot (Z / D65.z))⟩ := rfl
  have hYdiv : Y / D65.y = Y := by
    norm_num [D65]
  rw [hfwd, hYdiv, clampLab]
  dsimp only
  -- L bounds
  have hpv_lo := labPivot_ge Y hY0
  have hpv_hi := labPivot_le_one Y hY0 hY1
  have hL0 : (0:ℝ) ≤ 116 * labPivot Y - 16 := by linarith
  have hL1 : 116 * labPivot Y - 16 ≤ 100 := by linarith
  -- a upper bound : fx - fy ≤ 0.254
  have hratio_a : X / D65.x ≤ 2.631 * Y := by
    rw [div_le_iff₀ (by norm_num [D65] : (0:ℝ) < D65.x)]
    simp only [D65]
    rw [hX, hY]
    nlinarith
  have hXd1 : X / D65.x ≤ 1 := by
    rw [div_le_one (by norm_num [D65] : (0:ℝ) < D65.x)]
    simp only [D65]
    linarith
  have hdiff_a : X / D65.x - Y ≤ 0.339 := by
    rw [sub_le_iff_le_add, div_le_iff₀ (by norm_num [D65] : (0:ℝ) < D65.x)]
    simp only [D65]
    rw [hX, hY]
    nlinarith
  have ha_up : labPivot (X / D65.x) - labPivot Y ≤ 0.254 :=
    labPivot_diff_le_a_upper _ _ hu hY0 hratio_a hXd1 hdiff_a
  -- a lower bound : fy - fx ≤ 0.256
  have ha_lo : labPivot Y - labPivot (X / D65.x) ≤ 0.256 := by
    apply labPivot_diff_le (X / D65.x) Y 1.24 1.00001 0.256 hu hY0
      (by norm_num) (by norm_num)
    · rw [← mul_div_assoc, le_div_iff₀ (by norm_num [D65] : (0:ℝ) < D65.x)]
      simp only [D65]
      rw [hX, hY]
      nlinarith
    · nlinarith
    · norm_num
    · norm_num
    · norm_num
  -- b upper bound : fy - fz ≤ 0.635
  have hb_up : labPivot Y - labPivot (Z / D65.z) ≤ 0.635 := by
    apply labPivot_diff_le (Z / D65.z) Y 2.2894 1.00001 0.635 hwz hY0
      (by norm_num) (by norm_num)
    · rw [← mul_div_assoc, le_div_iff₀ (by norm_num [D65] : (0:ℝ) < D65.z)]
      simp only [D65]
      rw [hY, hZ]
      nlinarith
    · nlinarith
    · norm_num
    · norm_num
    · norm_num
  -- b lower bound : fz - fy ≤ 0.64
  have hb_lo : labPivot (Z / D65.z) - labPivot Y ≤ 0.64 := by
    apply labPivot_diff_le Y (Z / D65.z) 2.2962 1 0.64 hY0 hwz
      (by norm_num) (by norm_num)
    · rw [div_le_iff₀ (by norm_num [D65] : (0:ℝ) < D65.z)]
      simp only [D65]
      rw [hY, hZ]
      nlinarith
    · rw [div_le_iff₀ (by norm_num [D65] : (0:ℝ) < D65.z)]
      simp only [D65]
      nlinarith
    · norm_num
    · norm_num
    · norm_num
  rw [clamp_id _ _ _ hL0 hL1,
    clamp_id _ _ _ (by linarith : (-128:ℝ) ≤ 500 * (labPivot (X / D65.x) - labPivot Y))
      (by linarith : 500 * (labPivot (X / D65.x) - labPivot Y) ≤ 127),
    clamp_id _ _ _ (by linarith : (-128:ℝ) ≤ 200 * (labPivot Y - labPivot (Z / D65.z)))
      (by linarith : 200 * (labPivot Y - labPivot (Z / D65.z)) ≤ 127)]

end Color

namespace Color

/-- Encoding a linear value within 5e-6 of 1 yields the byte 255. -/
theorem near_one_channel (t : ℝ) (h1 : 1 - 5e-6 ≤ t) (h2 : t ≤ 1 + 5e-6) :
    clampInt (jsRound (linearToSrgb t * 255)) 0 255 = 255 := by
  have ht0 : (0:ℝ) < t := by linarith
  rw [linearToSrgb, if_neg (by push_neg; linarith)]
  have hexp : ((1:ℝ)/2.4) = (5:ℝ)/12 := by norm_num
  rw [hexp]
  have hT : 1 - 5e-6 ≤ t ^ ((5:ℝ)/12) ∧ t ^ ((5:ℝ)/12) ≤ 1 + 5e-6 := by
    rcases le_total 1 t with hc | hc
    · constructor
      · have := Real.one_le_rpow hc (by norm_num : (0:ℝ) ≤ (5:ℝ)/12)
        linarith
      · have h3 : t ^ ((5:ℝ)/12) ≤ t ^ (1:ℝ) :=
          Real.rpow_le_rpow_of_exponent_le hc (by norm_num)
        rw [Real.rpow_one] at h3
        linarith
    · constructor
      · have h3 : t ^ (1:ℝ) ≤ t ^ ((5:ℝ)/12) :=
          Real.rpow_le_rpow_of_exponent_ge ht0 hc (by norm_num)
        rw [Real.rpow_one] at h3
        linarith
      · have := Real.rpow_le_one ht0.le hc (by norm_num : (0:ℝ) ≤ (5:ℝ)/12)
        linarith
  have hr : jsRound ((1.055 * t ^ ((5:ℝ)/12) - 0.055) * 255) = 255 := by
    apply jsRound_eq_of_near
    · push_cast
      nlinarith [hT.1]
    · push_cast
      nlinarith [hT.2]
  rw [hr]
  exact clampInt_id 255 (by norm_num) (by norm_num)

set_option maxHeartbeats 2000000 in
/-- The transfer path at pure white: the clamp cuts L from about
100.000004 down to 100, and the perturbed inverse still re-encodes to
(255, 255, 255). -/
theorem labToRgb_clampLab_white :
    labToRgb (clampLab (rgbToLab (255:ℝ) 255 255)).L
      (clampLab (rgbToLab (255:ℝ) 255 255)).a
      (clampLab (rgbToLab (255:ℝ) 255 255)).b = ⟨255, 255, 255⟩ := by
  have hlin1 : srgbToLinear ((255:ℝ)/255) = 1 := by
    rw [(by norm_num : ((255:ℝ)/255) = 1), srgbToLinear, if_neg (by norm_num)]
    rw [(by norm_num : ((1:ℝ) + 0.055)/1.055 = 1), Real.one_rpow]
  have hfwd : rgbToLab (255:ℝ) 255 255 =
      ⟨116 * labPivot ((srgbToLinear ((255:ℝ)/255) * 0.2126729 +
          srgbToLinear ((255:ℝ)/255) * 0.7151522 +
          srgbToLinear ((255:ℝ)/255) * 0.0721750) / D65.y) - 16,
       500 * (labPivot ((srgbToLinear ((255:ℝ)/255) * 0.4124564 +
          srgbToLinear ((255:ℝ)/255) * 0.3575761 +
          srgbToLinear ((255:ℝ)/255) * 0.1804375) / D65.x) -
        labPivot ((srgbToLinear ((255:ℝ)/255) * 0.2126729 +
          srgbToLinear ((255:ℝ)/255) * 0.7151522 +
          srgbToLinear ((255:ℝ)/255) * 0.0721750) / D65.y)),
       200 * (labPivot ((srgbToLinear ((255:ℝ)/255) * 0.2126729 +
          srgbToLinear ((255:ℝ)/255) * 0.7151522 +
          srgbToLinear ((255:ℝ)/255) * 0.0721750) / D65.y) -
        labPivot ((srgbToLinear ((255:ℝ)/255) * 0.0193339 +
          srgbToLinear ((255:ℝ)/255) * 0.1191920 +
          srgbToLinear ((255:ℝ)/255) * 0.9503041) / D65.z))⟩ := rfl
  rw [hfwd, hlin1]
  have hux : ((1:ℝ) * 0.4124564 + 1 * 0.3575761 + 1 * 0.1804375) / D65.x = 1 := by
    norm_num [D65]
  have huy : ((1:ℝ) * 0.2126729 + 1 * 0.7151522 + 1 * 0.0721750) / D65.y =
      1.0000001 := by
    norm_num [D65]
  have huz : ((1:ℝ) * 0.0193339 + 1 * 0.1191920 + 1 * 0.9503041) / D65.z = 1 := by
    norm_num [D65]
  rw [hux, huy, huz]
  have hpiv1 : labPivot 1 = 1 := by
    rw [labPivot, if_pos (by norm_num), jsCbrt, if_pos (by norm_num),
      Real.one_rpow]
  set c := labPivot 1.0000001 with hc
  have hcval : c = (1.0000001:ℝ) ^ ((1:ℝ)/3) := by
    rw [hc, labPivot, if_pos (by norm_num), jsCbrt, if_pos (by norm_num)]
  have hc1 : 1 ≤ c := by
    rw [hcval]
    exact Real.one_le_rpow (by norm_num) (by norm_num)
  have hc2 : c ≤ 1.00000004 := by
    rw [hcval]
    exact rpow_inv_le_of_le_pow _ _ 3 (by norm_num) (by norm_num) (by norm_num)
      (by norm_num)
  rw [hpiv1]
  have hclamp : clampLab ⟨116 * c - 16, 500 * (1 - c), 200 * (c - 1)⟩ =
      ⟨100, 500 * (1 - c), 200 * (c - 1)⟩ := by
    rw [clampLab]
    dsimp only
    rw [clamp, max_eq_right (by linarith : (0:ℝ) ≤ 116 * c - 16),
      min_eq_left (by linarith : (100:ℝ) ≤ 116 * c - 16)]
    rw [clamp_id _ _ _ (by linarith : (-128:ℝ) ≤ 500 * (1 - c))
      (by linarith : 500 * (1 - c) ≤ 127),
      clamp_id _ _ _ (by linarith : (-128:ℝ) ≤ 200 * (c - 1))
      (by linarith : 200 * (c - 1) ≤ 127)]
  rw [hclamp]
  rw [labToRgb]
  have e1 : ((100:ℝ) + 16) / 116 = 1 := by norm_num
  rw [e1]
  have e2 : (500:ℝ) * (1 - c) / 500 + 1 = 2 - c := by ring
  rw [e2]
  have e3 : (1:ℝ) - 200 * (c - 1) / 200 = 2 - c := by ring
  rw [e3]
  have hp1 : labPivotInv 1 = 1 := by
    rw [labPivotInv]
    norm_num
  have hp2 : labPivotInv (2 - c) = (2 - c) ^ (3:ℕ) := by
    rw [labPivotInv]
    have hcube : (0.008856:ℝ) < (2 - c) ^ (3:ℕ) := by
      have h1 : (0.99999996:ℝ) ≤ 2 - c := by linarith
      have h2 : ((0.99999996:ℝ)) ^ (3:ℕ) ≤ (2 - c) ^ (3:ℕ) :=
        pow_le_pow_left₀ (by norm_num) h1 3
      nlinarith
    simp only [hcube, if_true]
  rw [hp1, hp2]
  set q := (2 - c) ^ (3:ℕ) with hq
  have hq_hi : q ≤ 1 := by
    rw [hq]
    calc (2 - c) ^ (3:ℕ) ≤ (1:ℝ) ^ (3:ℕ) :=
      pow_le_pow_left₀ (by linarith) (by linarith) 3
    _ = 1 := one_pow 3
  have hq_lo : 1 - 1.3e-7 ≤ q := by
    rw [hq]
    have h1 : ((0.99999996:ℝ)) ^ (3:ℕ) ≤ (2 - c) ^ (3:ℕ) :=
      pow_le_pow_left₀ (by norm_num) (by linarith) 3
    nlinarith
  rw [RGB.mk.injEq]
  refine ⟨?_, ?_, ?_⟩
  · apply near_one_channel
    · simp only [D65]
      nlinarith
    · simp only [D65]
      nlinarith
  · apply near_one_channel
    · simp only [D65]
      nlinarith
    · simp only [D65]
      nlinarith
  · apply near_one_channel
    · simp only [D65]
      nlinarith
    · simp only [D65]
      nlinarith

end Color

namespace Color

theorem blend_self (n : ℤ) (s : ℝ) : blend (n:ℝ) (n:ℝ) s = n := by
  rw [blend, (by ring : (n:ℝ) + ((n:ℝ) - (n:ℝ)) * s = (n:ℝ))]
  apply jsRound_eq_of_near
  · norm_num
  · norm_num

theorem writeByte_id (n : ℤ) (h0 : 0 ≤ n) (h255 : n ≤ 255) : writeByte n = n := by
  rw [writeByte]
  exact clampInt_id n h0 h255

/-- With identical reference and target statistics (whose std components are
nonzero, per the Stats invariant), the transfer ratio is exactly 1 and the
loop body fixes every in-range pixel. -/
theorem processPixel_self (ref : Stats) (s : ℝ) (mode : String) (p : Pixel)
    (hstd : ref.std.L ≠ 0 ∧ ref.std.a ≠ 0 ∧ ref.std.b ≠ 0)
    (hr0 : 0 ≤ p.r) (hr1 : p.r ≤ 255) (hg0 : 0 ≤ p.g) (hg1 : p.g ≤ 255)
    (hb0 : 0 ≤ p.b) (hb1 : p.b ≤ 255) :
    processPixel ref ref s mode p = p := by
  have htl : ∀ lab : Lab, transferLab ref ref mode lab = lab := by
    intro lab
    have h1 : (if mode = "full" ∨ mode = "luminance" then
        (lab.L - ref.mean.L) * (ref.std.L / ref.std.L) + ref.mean.L
        else lab.L) = lab.L := by
      split_ifs with h
      · rw [div_self hstd.1]
        ring
      · rfl
    have h2 : (if mode = "full" ∨ mode = "chromatic" then
        (lab.a - ref.mean.a) * (ref.std.a / ref.std.a) + ref.mean.a
        else lab.a) = lab.a := by
      split_ifs with h
      · rw [div_self hstd.2.1]
        ring
      · rfl
    have h3 : (if mode = "full" ∨ mode = "chromatic" then
        (lab.b - ref.mean.b) * (ref.std.b / ref.std.b) + ref.mean.b
        else lab.b) = lab.b := by
      split_ifs with h
      · rw [div_self hstd.2.2]
        ring
      · rfl
    simp only [transferLab, h1, h2, h3]
  have hrgb : labToRgb (clampLab (rgbToLab (p.r:ℝ) (p.g:ℝ) (p.b:ℝ))).L
      (clampLab (rgbToLab (p.r:ℝ) (p.g:ℝ) (p.b:ℝ))).a
      (clampLab (rgbToLab (p.r:ℝ) (p.g:ℝ) (p.b:ℝ))).b = ⟨p.r, p.g, p.b⟩ := by
    by_cases hwhite : p.r = 255 ∧ p.g = 255 ∧ p.b = 255
    · rw [hwhite.1, hwhite.2.1, hwhite.2.2]
      push_cast
      exact labToRgb_clampLab_white
    · rw [clampLab_rgbToLab_id p.r p.g p.b hr0 hr1 hg0 hg1 hb0 hb1 hwhite]
      exact roundtrip_core p.r p.g p.b hr0 hr1 hg0 hg1 hb0 hb1
  simp only [processPixel, htl, hrgb]
  rw [blend_self p.r s, blend_self p.g s, blend_self p.b s,
    writeByte_id p.r hr0 hr1, writeByte_id p.g hg0 hg1, writeByte_id p.b hb0 hb1]

/-- Claim C2: if the reference statistics record equals the target
statistics record (a Stats record, so with nonzero std components), then
`applyReinhardTransfer` leaves every byte of the buffer unchanged, for
every strength in [0, 1] and every mode. -/
theorem applyReinhardTransfer_stats_eq_id (data : List Pixel)
    (referenceStats targetStats : Stats) (strength : ℝ) (mode : String)
    (heq : referenceStats = targetStats)
    (hstd : targetStats.std.L ≠ 0 ∧ targetStats.std.a ≠ 0 ∧
      targetStats.std.b ≠ 0)
    (hs : 0 ≤ strength ∧ strength ≤ 1)
    (hwf : ∀ p ∈ data, 0 ≤ p.r ∧ p.r ≤ 255 ∧ 0 ≤ p.g ∧ p.g ≤ 255 ∧
      0 ≤ p.b ∧ p.b ≤ 255) :
    applyReinhardTransfer data referenceStats targetStats strength mode
      = data := by
  subst heq
  rw [applyReinhardTransfer]
  have haux : ∀ l : List Pixel, (∀ p ∈ l, 0 ≤ p.r ∧ p.r ≤ 255 ∧ 0 ≤ p.g ∧
      p.g ≤ 255 ∧ 0 ≤ p.b ∧ p.b ≤ 255) →
      l.map (processPixel referenceStats referenceStats strength mode) = l := by
    intro l
    induction l with
    | nil => intro _; rfl
    | cons p rest ih =>
      intro hl
      have hp := hl p (List.mem_cons_self p rest)
      rw [List.map_cons,
        processPixel_self referenceStats strength mode p hstd hp.1 hp.2.1
          hp.2.2.1 hp.2.2.2.1 hp.2.2.2.2.1 hp.2.2.2.2.2,
        ih (fun q hq => hl q (List.mem_cons_of_mem p hq))]
  exact haux data hwf

theorem applyReinhardTransfer_stats_eq_id_witness :
    ((⟨⟨0, 0, 0⟩, ⟨1, 1, 1⟩⟩ : Stats) = (⟨⟨0, 0, 0⟩, ⟨1, 1, 1⟩⟩ : Stats) ∧
      ((⟨⟨0, 0, 0⟩, ⟨1, 1, 1⟩⟩ : Stats).std.L ≠ 0 ∧
       (⟨⟨0, 0, 0⟩, ⟨1, 1, 1⟩⟩ : Stats).std.a ≠ 0 ∧
       (⟨⟨0, 0, 0⟩, ⟨1, 1, 1⟩⟩ : Stats).std.b ≠ 0) ∧
      ((0:ℝ) ≤ 1 ∧ (1:ℝ) ≤ 1)) ∧
    applyReinhardTransfer [⟨5, 6, 7, 255⟩] ⟨⟨0, 0, 0⟩, ⟨1, 1, 1⟩⟩
      ⟨⟨0, 0, 0⟩, ⟨1, 1, 1⟩⟩ 1 "full" = [⟨5, 6, 7, 255⟩] :=
  ⟨⟨rfl, ⟨by norm_num, by norm_num, by norm_num⟩, by norm_num⟩,
   applyReinhardTransfer_stats_eq_id [⟨5, 6, 7, 255⟩] _ _ 1 "full" rfl
     ⟨by norm_num, by norm_num, by norm_num⟩ (by norm_num)
     (by intro p hp; simp only [List.mem_singleton] at hp; subst hp; norm_num)⟩

end Color

namespace Color

/-- Whatever reaches the final `clamp(Math.round(...), 0, 255)` of the
float64 converter, the stored channel is either `NaN` (propagated by
`Math.max`/`Math.min`) or an integer in [0, 255] (`Infinity` clamps to 255
and `-Infinity` to 0). -/
theorem clampF_round_byte (v : JSFloat) :
    clampF (fltRound v) (JSFloat.fin 0) (JSFloat.fin 255) = JSFloat.nan ∨
    ∃ k : ℤ, clampF (fltRound v) (JSFloat.fin 0) (JSFloat.fin 255) =
      JSFloat.fin (k:ℝ) ∧ 0 ≤ k ∧ k ≤ 255 := by
  cases v with
  | nan =>
    left
    simp [clampF, fltRound, fltMax, fltMin]
  | inf =>
    right
    refine ⟨255, ?_, by norm_num, by norm_num⟩
    simp [clampF, fltRound, fltMax, fltMin]
  | ninf =>
    right
    refine ⟨0, ?_, by norm_num, by norm_num⟩
    simp [clampF, fltRound, fltMax, fltMin]
  | fin x =>
    right
    refine ⟨min 255 (max 0 ⌊x + 1/2⌋), ?_, ?_, ?_⟩
    · simp only [clampF, fltRound, fltMax, fltMin]
      congr 1
      push_cast
      rfl
    · exact le_min (by norm_num) (le_max_left 0 _)
    · exact min_le_left 255 _

/-- Claim C10 amended: `labToRgb` never returns an out-of-range or
non-integer channel — in the float64 model each returned channel is either
an integer in [0, 255] or `NaN`.  `NaN` channels are reachable for finite
Lab inputs of overflowing magnitude, contrary to the original claim's "no
input produces NaN". -/
theorem labToRgbF_byte_or_nan (L a b : JSFloat) :
    ((labToRgbF L a b).1 = JSFloat.nan ∨
      ∃ k : ℤ, (labToRgbF L a b).1 = JSFloat.fin (k:ℝ) ∧ 0 ≤ k ∧ k ≤ 255) ∧
    ((labToRgbF L a b).2.1 = JSFloat.nan ∨
      ∃ k : ℤ, (labToRgbF L a b).2.1 = JSFloat.fin (k:ℝ) ∧ 0 ≤ k ∧ k ≤ 255) ∧
    ((labToRgbF L a b).2.2 = JSFloat.nan ∨
      ∃ k : ℤ, (labToRgbF L a b).2.2 = JSFloat.fin (k:ℝ) ∧ 0 ≤ k ∧ k ≤ 255) :=
  ⟨clampF_round_byte _, clampF_round_byte _, clampF_round_byte _⟩

/-- Claim C10 counterexample: on the float64 model, the finite Lab input
(1e308, 0, 0) produces `NaN` in all three channels — `fy` is about
8.6e305, `Math.pow(fy, 3)` overflows to `Infinity`, every pivot inverse is
`Infinity`, each XYZ-to-RGB row mixes positive and negative coefficients
and computes `Infinity - Infinity = NaN`, and `Math.max`/`Math.min`
propagate the `NaN` past the final clamp. -/
theorem labToRgbF_overflow_nan :
    (labToRgbF (JSFloat.fin 1e308) (JSFloat.fin 0) (JSFloat.fin 0)).1 =
      JSFloat.nan ∧
    (labToRgbF (JSFloat.fin 1e308) (JSFloat.fin 0) (JSFloat.fin 0)).2.1 =
      JSFloat.nan ∧
    (labToRgbF (JSFloat.fin 1e308) (JSFloat.fin 0) (JSFloat.fin 0)).2.2 =
      JSFloat.nan := by
  refine ⟨?_, ?_, ?_⟩ <;>
    norm_num [labToRgbF, labPivotInvF, linearToSrgbF, fltAdd, fltSub, fltMul,
      fltDiv, fltPow3, fltPowInv24, fltRound, fltMin, fltMax, fltLe, fltLt,
      clampF, fltOfReal, maxDouble, D65]

end Color
